import Mathlib

/-!
Verification of `mm.c` (wdq/csce351-malloc): an explicit free-list dynamic
memory allocator with boundary-tag coalescing, first-fit placement, block
splitting and in-place resize.

Modelling choices (shallow embedding of the C source):

* The arena is a word-granular memory `Nat → Nat`: every load/store in the
  source (`GET`/`PUT` and the free-list pointer slots) is a 4-byte `size_t`
  or pointer access at a 4-aligned address, so the model indexes memory by
  byte address and only ever uses 4-aligned keys.  Stored words are reduced
  mod 2^32, matching a 32-bit `size_t`.
* The arena is modelled zero-initialised.  (The code itself relies on this
  for the very first `coalesce` after `mm_init`: the word below the first
  extension block is never written, and the `PREV_BLKP(bp) == bp` disjunct
  in `coalesce` is what rescues the resulting size-0 read.)
* `mem_sbrk` is modelled after `memlib.c`: it returns the old break and
  fails (returns the `(void * ) -1` sentinel, here `none`) when the new
  break would exceed the configured maximum `cap`; the heap starts at
  byte address 8 (any 8-aligned nonzero base behaves identically).
* Addresses are `Nat`; C pointer subtraction on 32-bit `size_t` values is
  modelled by `sub32` (subtraction mod 2^32) at the spots where the C code
  can underflow (`PREV_BLKP`, `csize - asize` in `place`), and `size_t`
  addition is reduced mod 2^32 at the spots where it can overflow (the
  adjusted-size computations of `mm_malloc` and `mm_realloc`, and
  `mm_realloc`'s `GET_SIZE + OVERHEAD <= GET_SIZE` check).
* The unbounded `for` loop of `find_fit` is given explicit fuel; running
  out of fuel yields the marker result `FitRes.diverge`, which public
  operations propagate as `none` (an artefact of the embedding, excluded
  by the termination hypotheses of every theorem below).
* `exit(1)` in `mm_realloc` is modelled as the distinguished outcome
  `RRes.exited 1`, and `memcpy` as a word-wise copy (its byte-exact tail
  behaviour is below the granularity of every property proved here).
-/

namespace MMalloc

/-- word size (bytes). -/
def WSIZE : Nat := 4
/-- doubleword size (bytes). -/
def DSIZE : Nat := 8
/-- initial heap size (bytes), `1<<12`. -/
def CHUNKSIZE : Nat := 4096
/-- overhead of header and footer (bytes). -/
def OVERHEAD : Nat := 8
/-- modulus of a 32-bit `size_t`. -/
def MOD32 : Nat := 2 ^ 32
/-- return the maximum of two numbers (`MAX` macro). -/
def MAX (x y : Nat) : Nat := if x > y then x else y
/-- 32-bit wrapping subtraction, modelling `size_t`/pointer subtraction. -/
def sub32 (a b : Nat) : Nat := (a + (MOD32 - b % MOD32)) % MOD32

/-- Allocator state: the arena memory plus the scalar globals of `mm.c`
(`heap_listp`, `free_listp`) and the `memlib` break/capacity. -/
structure MM where
  mem : Nat → Nat
  heap_listp : Nat
  free_listp : Nat
  brk : Nat
  cap : Nat

/-- read a word at address p (`GET`). -/
def GET (p : Nat) (s : MM) : Nat := s.mem p

/-- write a word at address p (`PUT`); stored values are 32-bit. -/
def PUT (p v : Nat) (s : MM) : MM := { s with mem := Function.update s.mem p (v % MOD32) }

/-- pack a size and allocated bit into a word (`PACK`). -/
def PACK (size alloc : Nat) : Nat := size ||| alloc

/-- read the size field from address p (`GET_SIZE`, i.e. `GET(p) & ~0x7`). -/
def GET_SIZE (p : Nat) (s : MM) : Nat := GET p s - GET p s % 8

/-- read the allocated field from address p (`GET_ALLOC`, i.e. `GET(p) & 0x1`). -/
def GET_ALLOC (p : Nat) (s : MM) : Nat := GET p s % 2

/-- address of the header of block bp (`HDRP`). -/
def HDRP (bp : Nat) : Nat := bp - WSIZE

/-- address of the footer of block bp (`FTRP`); reads the header's size. -/
def FTRP (bp : Nat) (s : MM) : Nat := bp + GET_SIZE (HDRP bp) s - DSIZE

/-- address of the next block (`NEXT_BLKP`). -/
def NEXT_BLKP (bp : Nat) (s : MM) : Nat := bp + GET_SIZE (bp - WSIZE) s

/-- address of the previous block (`PREV_BLKP`); 32-bit pointer arithmetic. -/
def PREV_BLKP (bp : Nat) (s : MM) : Nat := sub32 bp (GET_SIZE (bp - DSIZE) s)

/-- next free block pointer stored in a free block's payload (`NEXT_FREE_BLKP`). -/
def NEXT_FREE_BLKP (bp : Nat) (s : MM) : Nat := GET (bp + WSIZE) s

/-- previous free block pointer stored in a free block's payload (`PREV_FREE_BLKP`). -/
def PREV_FREE_BLKP (bp : Nat) (s : MM) : Nat := GET bp s

/-- the `memlib` growth primitive: returns the old break, or fails when the
configured capacity would be exceeded; never moves or shrinks the region. -/
def mem_sbrk (n : Nat) (s : MM) : Option Nat × MM :=
  if s.brk + n ≤ s.cap then (some s.brk, { s with brk := s.brk + n }) else (none, s)

/-- addblock: add a block to the start of the `free_listp` explicit free list. -/
def addblock (bp : Nat) (s : MM) : MM :=
  let s1 := PUT (bp + WSIZE) s.free_listp s
  let s2 := PUT s1.free_listp bp s1
  let s3 := PUT bp 0 s2
  { s3 with free_listp := bp }

/-- removeblock: remove a block from the `free_listp` explicit free list. -/
def removeblock (bp : Nat) (s : MM) : MM :=
  let s1 :=
    if PREV_FREE_BLKP bp s ≠ 0 then
      PUT (PREV_FREE_BLKP bp s + WSIZE) (NEXT_FREE_BLKP bp s) s
    else
      { s with free_listp := NEXT_FREE_BLKP bp s }
  PUT (NEXT_FREE_BLKP bp s1) (PREV_FREE_BLKP bp s1) s1

/-- coalesce: boundary tag coalescing; returns the (possibly moved) block
pointer together with the new state. -/
def coalesce (bp : Nat) (s : MM) : Nat × MM :=
  let prev_alloc : Bool := GET_ALLOC (FTRP (PREV_BLKP bp s) s) s != 0 || PREV_BLKP bp s == bp
  let next_alloc : Bool := GET_ALLOC (HDRP (NEXT_BLKP bp s)) s != 0
  let size := GET_SIZE (HDRP bp) s
  if prev_alloc && next_alloc then
    -- Case 1 (don't merge anything)
    (bp, addblock bp s)
  else if prev_alloc && !next_alloc then
    -- Case 2 (merge next block)
    let size := size + GET_SIZE (HDRP (NEXT_BLKP bp s)) s
    let s1 := removeblock (NEXT_BLKP bp s) s
    let s2 := PUT (HDRP bp) (PACK size 0) s1
    let s3 := PUT (FTRP bp s2) (PACK size 0) s2
    (bp, addblock bp s3)
  else if !prev_alloc && next_alloc then
    -- Case 3 (merge previous block)
    let size := size + GET_SIZE (HDRP (PREV_BLKP bp s)) s
    let s1 := removeblock (PREV_BLKP bp s) s
    let s2 := PUT (HDRP (PREV_BLKP bp s1)) (PACK size 0) s1
    let s3 := PUT (FTRP (PREV_BLKP bp s2) s2) (PACK size 0) s2
    let bp2 := PREV_BLKP bp s3
    (bp2, addblock bp2 s3)
  else
    -- Case 4 (merge previous and next blocks)
    let size := size + GET_SIZE (HDRP (PREV_BLKP bp s)) s + GET_SIZE (HDRP (NEXT_BLKP bp s)) s
    let s1 := removeblock (PREV_BLKP bp s) s
    let s2 := removeblock (NEXT_BLKP bp s1) s1
    let s3 := PUT (HDRP (PREV_BLKP bp s2)) (PACK size 0) s2
    let s4 := PUT (FTRP (PREV_BLKP bp s3) s3) (PACK size 0) s3
    let bp2 := PREV_BLKP bp s4
    (bp2, addblock bp2 s4)

/-- the number of bytes `extend_heap` actually requests: an even number of
words, at least 16 bytes. -/
def extendSizeOf (words : Nat) : Nat :=
  if (if words % 2 = 1 then (words + 1) * WSIZE else words * WSIZE) > OVERHEAD + OVERHEAD
  then (if words % 2 = 1 then (words + 1) * WSIZE else words * WSIZE)
  else OVERHEAD + OVERHEAD

/-- extend_heap: extend the heap with a free block and return its pointer. -/
def extend_heap (words : Nat) (s : MM) : Option Nat × MM :=
  match mem_sbrk (extendSizeOf words) s with
  | (none, s1) => (none, s1)
  | (some bp, s1) =>
    let s2 := PUT (HDRP bp) (PACK (extendSizeOf words) 0) s1
    let s3 := PUT (FTRP bp s2) (PACK (extendSizeOf words) 0) s2
    let s4 := PUT (HDRP (NEXT_BLKP bp s3)) (PACK 0 1) s3
    let r := coalesce bp s4
    (some r.1, r.2)

/-- Result of one run of the `for` loop in `find_fit`: a fitting block was
found, the loop fell off the free list (allocated header reached), or the
fuel ran out (the loop would still be running). -/
inductive FitRes where
  | found (bp : Nat)
  | miss
  | diverge
deriving DecidableEq, Repr

/-- the `for` loop of `find_fit`, with explicit fuel. -/
def find_fit_loop (asize bp : Nat) (s : MM) : Nat → FitRes
  | 0 => .diverge
  | fuel + 1 =>
    if GET_ALLOC (HDRP bp) s = 0 then
      if GET_ALLOC (HDRP bp) s = 0 ∧ asize ≤ GET_SIZE (HDRP bp) s then .found bp
      else find_fit_loop asize (NEXT_FREE_BLKP bp s) s fuel
    else .miss

/-- place: place a block of asize bytes at the start of free block bp,
splitting if the remainder would be at least the minimum block size. -/
def place (bp asize : Nat) (s : MM) : MM :=
  let csize := GET_SIZE (HDRP bp) s
  if DSIZE + OVERHEAD ≤ sub32 csize asize then
    let s1 := PUT (HDRP bp) (PACK asize 1) s
    let s2 := PUT (FTRP bp s1) (PACK asize 1) s1
    let s3 := removeblock bp s2
    let bp2 := NEXT_BLKP bp s3
    let s4 := PUT (HDRP bp2) (PACK (sub32 csize asize) 0) s3
    let s5 := PUT (FTRP bp2 s4) (PACK (sub32 csize asize) 0) s4
    (coalesce bp2 s5).2
  else
    let s1 := PUT (HDRP bp) (PACK csize 1) s
    let s2 := PUT (FTRP bp s1) (PACK csize 1) s1
    removeblock bp s2

/-- find_fit: first-fit search over the explicit free list; on a miss the
heap is extended (by `asize` bytes) so that a fit exists whenever the arena
can still grow.  `none` marks fuel exhaustion of the scan loop. -/
def find_fit (asize fuel : Nat) (s : MM) : Option (Option Nat × MM) :=
  match find_fit_loop asize s.free_listp s fuel with
  | .found bp => some (some bp, s)
  | .miss => some (extend_heap (asize / WSIZE) s)
  | .diverge => none

/-- the adjusted block size computed by `mm_malloc` (overhead + alignment);
the sum `size + OVERHEAD + (DSIZE-1)` is 32-bit `size_t` arithmetic, so it
wraps for requests above `2^32 - 16` (the quotient is then ≤ `2^32/8`, so
the final product cannot wrap). -/
def adjustSize (size : Nat) : Nat :=
  if size ≤ DSIZE then DSIZE + OVERHEAD
  else DSIZE * ((size + OVERHEAD + (DSIZE - 1)) % MOD32 / DSIZE)

/-- mm_malloc: allocate a block with at least `size` bytes of payload.
Returns `none` on fuel exhaustion of the free-list scan (embedding
artefact), otherwise `some (ptr?, state)` where `ptr? = none` models the
`NULL` failure sentinel. -/
def mm_malloc (size fuel : Nat) (s : MM) : Option (Option Nat × MM) :=
  if size = 0 then some (none, s)
  else
    match find_fit (adjustSize size) fuel s with
    | none => none
    | some (some bp, s1) => some (some bp, place bp (adjustSize size) s1)
    | some (none, s1) =>
      match extend_heap (MAX (adjustSize size) CHUNKSIZE / WSIZE) s1 with
      | (none, s2) => some (none, s2)
      | (some bp, s2) => some (some bp, place bp (adjustSize size) s2)

/-- mm_free: free a block. -/
def mm_free (bp : Nat) (s : MM) : MM :=
  let size := GET_SIZE (HDRP bp) s
  let s1 := PUT (HDRP bp) (PACK size 0) s
  let s2 := PUT (FTRP bp s1) (PACK size 0) s1
  (coalesce bp s2).2

/-- word-wise model of `memcpy(dst, src, n)` (n in bytes). -/
def memcpyWords (dst src n : Nat) (s : MM) : MM :=
  (List.range ((n + 3) / 4)).foldl (fun t i => PUT (dst + 4 * i) (GET (src + 4 * i) t) t) s

/-- the adjusted size computed by `mm_realloc`:
`(((size) + (OVERHEAD-1)) & ~0x7) + OVERHEAD` in 32-bit `size_t`
arithmetic (both the inner sum and the final `+ OVERHEAD` wrap), clamped up
to `3*OVERHEAD`. -/
def reallocAdjust (size : Nat) : Nat :=
  if ((size + (OVERHEAD - 1)) % MOD32 - ((size + (OVERHEAD - 1)) % MOD32) % 8 + OVERHEAD)
      % MOD32 < 3 * OVERHEAD
  then 3 * OVERHEAD
  else ((size + (OVERHEAD - 1)) % MOD32 - ((size + (OVERHEAD - 1)) % MOD32) % 8 + OVERHEAD)
      % MOD32

/-- Outcome of `mm_realloc`: a returned pointer, a call to `exit(code)`,
or fuel exhaustion of the embedded `mm_malloc` scan (embedding artefact). -/
inductive RRes where
  | ret (p : Nat) (s : MM)
  | exited (code : Nat) (s : MM)
  | diverge

/-- mm_realloc: resize an allocation (shrink-and-split, absorb the free
successor, or allocate+copy+free; the last path calls `exit(1)` when its
allocation fails). -/
def mm_realloc (ptr size fuel : Nat) (s : MM) : RRes :=
  if reallocAdjust size ≤ GET_SIZE (HDRP ptr) s then
    if GET_SIZE (HDRP ptr) s - reallocAdjust size ≤ 3 * OVERHEAD then .ret ptr s
    else
      let s1 := PUT (HDRP ptr) (PACK (reallocAdjust size) 1) s
      let s2 := PUT (FTRP ptr s1) (PACK (reallocAdjust size) 1) s1
      let s3 := PUT (HDRP (NEXT_BLKP ptr s2))
        (PACK (GET_SIZE (HDRP ptr) s - reallocAdjust size) 1) s2
      .ret ptr (mm_free (NEXT_BLKP ptr s3) s3)
  else if (GET_SIZE (HDRP ptr) s + OVERHEAD) % MOD32 ≤ GET_SIZE (HDRP ptr) s then .ret ptr s
  else if GET_ALLOC (HDRP (NEXT_BLKP ptr s)) s = 0 ∧
      reallocAdjust size ≤ GET_SIZE (HDRP (NEXT_BLKP ptr s)) s + GET_SIZE (HDRP ptr) s then
    let s1 := removeblock (NEXT_BLKP ptr s) s
    let s2 := PUT (HDRP ptr)
      (PACK (GET_SIZE (HDRP (NEXT_BLKP ptr s)) s + GET_SIZE (HDRP ptr) s) 1) s1
    let s3 := PUT (FTRP ptr s2)
      (PACK (GET_SIZE (HDRP (NEXT_BLKP ptr s)) s + GET_SIZE (HDRP ptr) s) 1) s2
    .ret ptr s3
  else
    match mm_malloc size fuel s with
    | none => .diverge
    | some (none, s1) => .exited 1 s1
    | some (some newp, s1) =>
      let s2 := memcpyWords newp ptr
        (if size < GET_SIZE (HDRP ptr) s1 then size else GET_SIZE (HDRP ptr) s1) s1
      .ret newp (mm_free ptr s2)

/-- mm_init: initialise the memory manager. -/
def mm_init (s : MM) : Option MM :=
  match mem_sbrk (6 * WSIZE) s with
  | (none, _) => none
  | (some hp, s1) =>
    let s2 := { s1 with heap_listp := hp }
    let s3 := PUT s2.heap_listp 0 s2
    let s4 := PUT (s3.heap_listp + WSIZE) (PACK OVERHEAD 1) s3
    let s5 := PUT (s4.heap_listp + DSIZE) (PACK OVERHEAD 1) s4
    let s6 := PUT (s5.heap_listp + WSIZE + DSIZE) (PACK 0 1) s5
    let s7 := { s6 with free_listp := s6.heap_listp + DSIZE }
    match extend_heap WSIZE s7 with
    | (none, _) => none
    | (some _, s8) => some s8

/-- the header = footer consistency test of `checkblock` (together with its
alignment test); `true` means no violation is reported. -/
def checkblock (bp : Nat) (s : MM) : Bool :=
  decide (bp % 8 = 0) && decide (GET (HDRP bp) s = GET (FTRP bp s) s)

/-- a fresh, zero-initialised arena with capacity `cap`, heap base 8. -/
def initialMM (cap : Nat) : MM :=
  { mem := fun _ => 0, heap_listp := 0, free_listp := 0, brk := 8, cap := cap }

/-- the state right after a successful `mm_init` on a roomy arena. -/
def initState : MM :=
  match mm_init (initialMM 100000) with
  | some s => s
  | none => initialMM 0

/-! ### The free list as seen through the heap words

`segB s p L q` says: starting from pointer value `p`, following the
`NEXT_FREE_BLKP` slots visits exactly the blocks of `L` in order and then
reaches the pointer value `q` (for the allocator: the terminal is the
prologue block, whose header is allocated, which is what stops the
`find_fit` scan).  `prevB s pr L` says every block of `L` carries in its
`PREV_FREE_BLKP` slot the address of its predecessor (`pr` for the first
element; the allocator uses `0`, i.e. `NULL`, there). -/
def segB (s : MM) : Nat → List Nat → Nat → Bool
  | p, [], q => p == q
  | p, b :: L, q => p == b && segB s (NEXT_FREE_BLKP b s) L q

/-- backlink structure of the free list (see `segB`). -/
def prevB (s : MM) : Nat → List Nat → Bool
  | _, [] => true
  | pr, b :: L => PREV_FREE_BLKP b s == pr && prevB s b L

/-- every block of the list has a free (allocated bit 0) header. -/
def allFree (s : MM) (l : List Nat) : Bool :=
  l.all (fun b => GET_ALLOC (HDRP b) s == 0)

/-! ### Concrete reachable states used by counterexamples and witnesses -/

/-- the state after a successful `mm_init` on an arena that can hold exactly
the initial heap (capacity 48) and nothing more. -/
def initTight : MM :=
  match mm_init (initialMM 48) with
  | some s => s
  | none => initialMM 0

/-- the state after `init(); A := allocate(8)` on the tight arena: `A` is the
block at 32 and the free list is empty (head designates the prologue). -/
def c5state : MM :=
  match mm_malloc 8 9 initTight with
  | some (some _, s) => s
  | _ => initialMM 0

/-- the state after `init(); A := allocate(40)` on the roomy arena: `A` is
the block at 32 with block size 48. -/
def c6state : MM :=
  match mm_malloc 40 9 initState with
  | some (some _, s) => s
  | _ => initialMM 0

/-- the state after `init(); A := allocate(8)` on the roomy arena: the only
free block was consumed whole, so the free list is empty (head designates
the prologue) and the break is 48 with plenty of capacity left. -/
def c4state : MM :=
  match mm_malloc 8 9 initState with
  | some (some _, s) => s
  | _ => initialMM 0

/-- a small well-formed heap used as a witness input for `place`: terminal
(prologue) block 16 with allocated header 9, one free block at 32 of size
48 (header 28, footer 72, empty prev slot, next slot pointing back at the
prologue), and an allocated size-0 block at 80 closing the heap. -/
def c7state : MM :=
  PUT 12 9 (PUT 28 48 (PUT 36 16 (PUT 72 48 (PUT 76 1
    { initialMM 100000 with heap_listp := 8, free_listp := 32, brk := 96 }))))

/-- a small well-formed heap used as a witness input for `coalesce`: the
free list holds the block at 32 (size 16, header 28, footer 40), a freshly
freed block sits at 48 (size 16, header 44, footer 56), and the allocated
size-0 block at 64 closes the heap.  Coalesce case 3: only the predecessor
is free. -/
def c3state : MM :=
  PUT 12 9 (PUT 28 16 (PUT 36 16 (PUT 40 16 (PUT 44 16 (PUT 56 16 (PUT 60 1
    { initialMM 100000 with heap_listp := 8, free_listp := 32, brk := 80 }))))))

/-- observe only the exit code of a `mm_realloc` outcome. -/
def rresExitCode : RRes → Option Nat
  | .exited code _ => some code
  | _ => none

/-- observe only the returned pointer of a `mm_realloc` outcome. -/
def rresPtr : RRes → Option Nat
  | .ret p _ => some p
  | _ => none

/-! ### Arithmetic facts about the word codec -/

theorem MOD32_pos : 0 < MOD32 := by
  unfold MOD32
  positivity

theorem sub32_eq_sub {a b : Nat} (hb : b ≤ a) (ha : a < MOD32) : sub32 a b = a - b := by
  unfold sub32
  have hb' : b % MOD32 = b := Nat.mod_eq_of_lt (lt_of_le_of_lt hb ha)
  rw [hb']
  have h1 : a + (MOD32 - b) = MOD32 + (a - b) := by
    have := MOD32_pos
    omega
  rw [h1, Nat.add_mod_left]
  exact Nat.mod_eq_of_lt (by omega)

theorem lor_one_of_even {n : Nat} (h : n % 2 = 0) : n ||| 1 = n + 1 := by
  obtain ⟨m, rfl⟩ : ∃ m, n = 2 * m := ⟨n / 2, by omega⟩
  have h1 : (1 : Nat) = Nat.bit true 0 := by simp [Nat.bit]
  have h2 : 2 * m = Nat.bit false m := by simp [Nat.bit, Nat.bit_val]
  rw [h2, h1, Nat.lor_bit]
  simp [Nat.bit, Nat.bit_val]

theorem PACK_alloc0 (sz : Nat) : PACK sz 0 = sz := Nat.or_zero sz

theorem PACK_alloc1 {sz : Nat} (h : sz % 2 = 0) : PACK sz 1 = sz + 1 :=
  lor_one_of_even h

theorem GET_SIZE_eq {p sz a : Nat} {s : MM} (h : GET p s = PACK sz a)
    (hsz : sz % 8 = 0) (ha : a = 0 ∨ a = 1) : GET_SIZE p s = sz := by
  rcases ha with rfl | rfl
  · rw [PACK_alloc0] at h
    unfold GET_SIZE
    omega
  · rw [PACK_alloc1 (by omega)] at h
    unfold GET_SIZE
    omega

theorem GET_ALLOC_eq {p sz a : Nat} {s : MM} (h : GET p s = PACK sz a)
    (hsz : sz % 8 = 0) (ha : a = 0 ∨ a = 1) : GET_ALLOC p s = a := by
  rcases ha with rfl | rfl
  · rw [PACK_alloc0] at h
    unfold GET_ALLOC
    omega
  · rw [PACK_alloc1 (by omega)] at h
    unfold GET_ALLOC
    omega

/-! ### Frame lemmas for the state operations -/

@[simp] theorem GET_PUT_same (p v : Nat) (s : MM) : GET p (PUT p v s) = v % MOD32 := by
  simp [GET, PUT]

theorem GET_PUT_ne {q p : Nat} (h : q ≠ p) (v : Nat) (s : MM) : GET q (PUT p v s) = GET q s := by
  simp [GET, PUT, Function.update_noteq h]

@[simp] theorem GET_set_free_listp (p f : Nat) (s : MM) :
    GET p { s with free_listp := f } = GET p s := rfl

@[simp] theorem GET_set_brk (p b : Nat) (s : MM) :
    GET p { s with brk := b } = GET p s := rfl


@[simp] theorem PUT_free_listp (p v : Nat) (s : MM) : (PUT p v s).free_listp = s.free_listp := rfl
@[simp] theorem PUT_heap_listp (p v : Nat) (s : MM) : (PUT p v s).heap_listp = s.heap_listp := rfl
@[simp] theorem PUT_brk (p v : Nat) (s : MM) : (PUT p v s).brk = s.brk := rfl
@[simp] theorem PUT_cap (p v : Nat) (s : MM) : (PUT p v s).cap = s.cap := rfl

@[simp] theorem addblock_brk (bp : Nat) (s : MM) : (addblock bp s).brk = s.brk := rfl
@[simp] theorem addblock_cap (bp : Nat) (s : MM) : (addblock bp s).cap = s.cap := rfl
@[simp] theorem addblock_heap_listp (bp : Nat) (s : MM) :
    (addblock bp s).heap_listp = s.heap_listp := rfl
@[simp] theorem addblock_free_listp (bp : Nat) (s : MM) : (addblock bp s).free_listp = bp := rfl

@[simp] theorem removeblock_brk (bp : Nat) (s : MM) : (removeblock bp s).brk = s.brk := by
  unfold removeblock
  split <;> rfl

@[simp] theorem removeblock_cap (bp : Nat) (s : MM) : (removeblock bp s).cap = s.cap := by
  unfold removeblock
  split <;> rfl

@[simp] theorem removeblock_heap_listp (bp : Nat) (s : MM) :
    (removeblock bp s).heap_listp = s.heap_listp := by
  unfold removeblock
  split <;> rfl

@[simp] theorem coalesce_brk (bp : Nat) (s : MM) : (coalesce bp s).2.brk = s.brk := by
  simp only [coalesce]
  split
  · simp
  · split
    · simp
    · split <;> simp

@[simp] theorem coalesce_cap (bp : Nat) (s : MM) : (coalesce bp s).2.cap = s.cap := by
  simp only [coalesce]
  split
  · simp
  · split
    · simp
    · split <;> simp

@[simp] theorem coalesce_heap_listp (bp : Nat) (s : MM) :
    (coalesce bp s).2.heap_listp = s.heap_listp := by
  simp only [coalesce]
  split
  · simp
  · split
    · simp
    · split <;> simp

@[simp] theorem place_brk (bp asize : Nat) (s : MM) : (place bp asize s).brk = s.brk := by
  simp only [place]
  split <;> simp

@[simp] theorem place_cap (bp asize : Nat) (s : MM) : (place bp asize s).cap = s.cap := by
  simp only [place]
  split <;> simp

/-! ### Chain lemmas -/

theorem segB_congr {s s' : MM} :
    ∀ {L : List Nat} {p q : Nat},
      (∀ b ∈ L, NEXT_FREE_BLKP b s' = NEXT_FREE_BLKP b s) →
      segB s' p L q = segB s p L q := by
  intro L
  induction L with
  | nil => intro p q _; rfl
  | cons b L ih =>
    intro p q h
    simp only [segB]
    rw [h b (by simp), ih]
    intro x hx
    exact h x (by simp [hx])

theorem prevB_congr {s s' : MM} :
    ∀ {L : List Nat} {pr : Nat},
      (∀ b ∈ L, PREV_FREE_BLKP b s' = PREV_FREE_BLKP b s) →
      prevB s' pr L = prevB s pr L := by
  intro L
  induction L with
  | nil => intro pr _; rfl
  | cons b L ih =>
    intro pr h
    simp only [prevB]
    rw [h b (by simp), ih]
    intro x hx
    exact h x (by simp [hx])

theorem segB_append {s : MM} {x q : Nat} {B : List Nat} :
    ∀ {A : List Nat} {p : Nat},
      segB s p (A ++ x :: B) q = true ↔
        (segB s p A x = true ∧ segB s x (x :: B) q = true) := by
  intro A
  induction A with
  | nil =>
    intro p
    simp [segB]
  | cons a A ih =>
    intro p
    constructor
    · intro h
      simp only [List.cons_append, segB, Bool.and_eq_true] at h
      obtain ⟨hpa, h2⟩ := h
      have h3 := ih.mp h2
      refine ⟨?_, h3.2⟩
      simp only [segB, Bool.and_eq_true]
      exact ⟨hpa, h3.1⟩
    · intro h
      obtain ⟨h1, h2⟩ := h
      simp only [segB, Bool.and_eq_true] at h1
      simp only [List.cons_append, segB, Bool.and_eq_true]
      exact ⟨h1.1, ih.mpr ⟨h1.2, h2⟩⟩

theorem prevB_append {s : MM} {x : Nat} {B : List Nat} :
    ∀ {A : List Nat} {pr : Nat},
      prevB s pr (A ++ x :: B) = true ↔
        (prevB s pr A = true ∧ PREV_FREE_BLKP x s = A.getLastD pr ∧ prevB s x B = true) := by
  intro A
  induction A with
  | nil =>
    intro pr
    simp [prevB]
  | cons a A ih =>
    intro pr
    constructor
    · intro h
      simp only [List.cons_append, prevB, Bool.and_eq_true, beq_iff_eq] at h
      obtain ⟨h1, h2⟩ := h
      have h3 := ih.mp h2
      refine ⟨?_, ?_, h3.2.2⟩
      · simp only [prevB, Bool.and_eq_true, beq_iff_eq]
        exact ⟨h1, h3.1⟩
      · rw [List.getLastD_cons]
        exact h3.2.1
    · intro h
      obtain ⟨h1, h2, h3⟩ := h
      simp only [prevB, Bool.and_eq_true, beq_iff_eq] at h1
      simp only [List.cons_append, prevB, Bool.and_eq_true, beq_iff_eq]
      refine ⟨h1.1, ih.mpr ⟨h1.2, ?_, h3⟩⟩
      rw [List.getLastD_cons] at h2
      exact h2

theorem removeblock_eq_head {s : MM} {x : Nat} (h : PREV_FREE_BLKP x s = 0) :
    removeblock x s =
      PUT (NEXT_FREE_BLKP x s) 0 { s with free_listp := NEXT_FREE_BLKP x s } := by
  unfold removeblock
  rw [if_neg (by rw [h]; exact fun hh => hh rfl)]
  show PUT (NEXT_FREE_BLKP x s) (PREV_FREE_BLKP x s) { s with free_listp := NEXT_FREE_BLKP x s }
    = _
  rw [h]

theorem removeblock_eq_mid {s : MM} {x : Nat} (h : PREV_FREE_BLKP x s ≠ 0)
    (hx : x ≠ PREV_FREE_BLKP x s + WSIZE) (hx4 : x + WSIZE ≠ PREV_FREE_BLKP x s + WSIZE) :
    removeblock x s =
      PUT (NEXT_FREE_BLKP x s) (PREV_FREE_BLKP x s)
        (PUT (PREV_FREE_BLKP x s + WSIZE) (NEXT_FREE_BLKP x s) s) := by
  unfold removeblock
  rw [if_pos h]
  have e1 : NEXT_FREE_BLKP x (PUT (PREV_FREE_BLKP x s + WSIZE) (NEXT_FREE_BLKP x s) s) =
      NEXT_FREE_BLKP x s := by
    show GET (x + WSIZE) _ = GET (x + WSIZE) s
    exact GET_PUT_ne hx4 _ _
  have e2 : PREV_FREE_BLKP x (PUT (PREV_FREE_BLKP x s + WSIZE) (NEXT_FREE_BLKP x s) s) =
      PREV_FREE_BLKP x s := by
    show GET x _ = GET x s
    exact GET_PUT_ne hx _ _
  show PUT (NEXT_FREE_BLKP x (PUT (PREV_FREE_BLKP x s + WSIZE) (NEXT_FREE_BLKP x s) s))
      (PREV_FREE_BLKP x (PUT (PREV_FREE_BLKP x s + WSIZE) (NEXT_FREE_BLKP x s) s))
      (PUT (PREV_FREE_BLKP x s + WSIZE) (NEXT_FREE_BLKP x s) s) = _
  rw [e1, e2]

/-- Full characterisation of `removeblock` on a well-formed free list: if
the words of `s` thread a doubly linked list through `A ++ x :: B` ending
at the terminal `t`, removing `x` leaves a doubly linked list through
`A ++ B` with the same terminal, and only the pointer slots of the listed
blocks (or of `t`) are written. -/
theorem removeblock_spec (s : MM) (t x : Nat) (A B : List Nat)
    (hseg : segB s s.free_listp (A ++ x :: B) t = true)
    (hprev : prevB s 0 (A ++ x :: B) = true)
    (hsep : (t :: (A ++ x :: B)).Pairwise (fun u v => u + 16 ≤ v ∨ v + 16 ≤ u))
    (hlow : ∀ y ∈ t :: (A ++ x :: B), 16 ≤ y ∧ y < MOD32) :
    segB (removeblock x s) (removeblock x s).free_listp (A ++ B) t = true ∧
    prevB (removeblock x s) 0 (A ++ B) = true ∧
    (∀ q, (∀ y ∈ t :: (A ++ x :: B), q ≠ y ∧ q ≠ y + 4) →
      GET q (removeblock x s) = GET q s) := by
  have hW : WSIZE = 4 := rfl
  have hlowP := hlow
  have hpw := hsep
  rw [List.pairwise_cons] at hpw
  obtain ⟨hRt, hpw2⟩ := hpw
  rw [List.pairwise_append] at hpw2
  obtain ⟨hpwA, hpwXB, hRAB⟩ := hpw2
  rw [List.pairwise_cons] at hpwXB
  obtain ⟨hRxB, hpwB⟩ := hpwXB
  have hsymm : Symmetric (fun u v : Nat => u + 16 ≤ v ∨ v + 16 ≤ u) := fun u v h => h.symm
  obtain ⟨hsegA, hsegX⟩ := segB_append.mp hseg
  have hsegX' : segB s (NEXT_FREE_BLKP x s) B t = true := by
    simp only [segB, Bool.and_eq_true, beq_iff_eq] at hsegX
    exact hsegX.2
  obtain ⟨hprevA, hprevX, hprevBx⟩ := prevB_append.mp hprev
  have hn : NEXT_FREE_BLKP x s = t ∨ NEXT_FREE_BLKP x s ∈ B := by
    cases B with
    | nil =>
      left
      simpa [segB] using hsegX'
    | cons b B' =>
      right
      simp only [segB, Bool.and_eq_true, beq_iff_eq] at hsegX'
      rw [hsegX'.1]
      simp
  have hnmem : NEXT_FREE_BLKP x s ∈ t :: (A ++ x :: B) := by
    rcases hn with h | h
    · simp [h]
    · simp [h]
  have hnbound := hlowP _ hnmem
  have hRnA : ∀ y ∈ A, y + 16 ≤ NEXT_FREE_BLKP x s ∨ NEXT_FREE_BLKP x s + 16 ≤ y := by
    intro y hy
    rcases hn with h | h
    · rw [h]
      exact (hRt y (by simp [hy])).symm
    · exact hRAB y hy _ (by simp [h])
  have hRnx : x + 16 ≤ NEXT_FREE_BLKP x s ∨ NEXT_FREE_BLKP x s + 16 ≤ x := by
    rcases hn with h | h
    · rw [h]
      exact (hRt x (by simp)).symm
    · exact hRxB _ h
  have hyn : ∀ y ∈ B, y + WSIZE ≠ NEXT_FREE_BLKP x s := by
    intro y hy
    rcases hn with h | h
    · have := hRt y (by simp [hy])
      omega
    · rcases eq_or_ne (NEXT_FREE_BLKP x s) y with rfl | hne
      · omega
      · have := hpwB.forall hsymm h hy hne
        omega
  have hyB : ∀ y ∈ B, y ≠ NEXT_FREE_BLKP x s ∨ y = NEXT_FREE_BLKP x s := fun y _ =>
    (eq_or_ne y (NEXT_FREE_BLKP x s)).symm.imp id id
  rcases List.eq_nil_or_concat' A with rfl | ⟨A', a, rfl⟩
  · -- x is the head of the free list
    have hpx : PREV_FREE_BLKP x s = 0 := by simpa using hprevX
    have heq := removeblock_eq_head hpx
    rw [heq]
    refine ⟨?_, ?_, ?_⟩
    · show segB _ (NEXT_FREE_BLKP x s) _ t = true
      cases B with
      | nil =>
        rcases hn with h | h
        · rw [List.nil_append, h]
          simp [segB]
        · simp at h
      | cons b B' =>
        simp only [segB, Bool.and_eq_true, beq_iff_eq] at hsegX'
        obtain ⟨hnb, htail⟩ := hsegX'
        rw [List.pairwise_cons] at hpwB
        obtain ⟨hRbB', hpwB'⟩ := hpwB
        rw [List.nil_append]
        simp only [segB, Bool.and_eq_true, beq_iff_eq]
        refine ⟨hnb, ?_⟩
        have hb' : NEXT_FREE_BLKP b
            (PUT (NEXT_FREE_BLKP x s) 0 { s with free_listp := NEXT_FREE_BLKP x s }) =
            NEXT_FREE_BLKP b s := by
          show GET (b + WSIZE) _ = GET (b + WSIZE) s
          rw [GET_PUT_ne (by rw [hnb]; omega), GET_set_free_listp]
        rw [hb', segB_congr ?_]
        · exact htail
        · intro y hy
          show GET (y + WSIZE) _ = GET (y + WSIZE) s
          rw [GET_PUT_ne (by rw [hnb]; have := hRbB' y hy; omega), GET_set_free_listp]
    · cases B with
      | nil => simp [prevB]
      | cons b B' =>
        simp only [segB, Bool.and_eq_true, beq_iff_eq] at hsegX'
        obtain ⟨hnb, htail⟩ := hsegX'
        rw [List.pairwise_cons] at hpwB
        obtain ⟨hRbB', hpwB'⟩ := hpwB
        simp only [prevB, Bool.and_eq_true, beq_iff_eq] at hprevBx
        rw [List.nil_append]
        simp only [prevB, Bool.and_eq_true, beq_iff_eq]
        constructor
        · show GET b _ = 0
          rw [← hnb, GET_PUT_same]
          simp
        · rw [prevB_congr ?_]
          · exact hprevBx.2
          · intro y hy
            show GET y _ = GET y s
            rw [GET_PUT_ne (by rw [hnb]; have := hRbB' y hy; omega), GET_set_free_listp]
    · intro q hq
      rw [GET_PUT_ne (hq _ hnmem).1, GET_set_free_listp]
  · -- x has a previous free block a
    have hamem : a ∈ t :: ((A' ++ [a]) ++ x :: B) := by simp
    have habound := hlowP _ hamem
    have hpa : PREV_FREE_BLKP x s = a := by
      rw [hprevX, List.getLastD_concat]
    have hRxa : a + 16 ≤ x ∨ x + 16 ≤ a := hRAB a (by simp) x (by simp)
    have hRna : a + 16 ≤ NEXT_FREE_BLKP x s ∨ NEXT_FREE_BLKP x s + 16 ≤ a :=
      hRnA a (by simp)
    have heq : removeblock x s =
        PUT (NEXT_FREE_BLKP x s) a (PUT (a + WSIZE) (NEXT_FREE_BLKP x s) s) := by
      rw [removeblock_eq_mid (by rw [hpa]; omega) (by rw [hpa]; omega)
        (by rw [hpa]; omega), hpa]
    rw [heq]
    obtain ⟨hsegA', hsegAx⟩ := segB_append.mp hsegA
    have hprevA2 := prevB_append.mp hprevA
    obtain ⟨hprevA', hprevAa, -⟩ := hprevA2
    rw [List.pairwise_append] at hpwA
    obtain ⟨hpwA', -, hRA'a0⟩ := hpwA
    have hRA'a : ∀ u ∈ A', u + 16 ≤ a ∨ a + 16 ≤ u := fun u hu => hRA'a0 u hu a (by simp)
    have hassoc : (A' ++ [a]) ++ B = A' ++ a :: B := by simp
    refine ⟨?_, ?_, ?_⟩
    · simp only [PUT_free_listp]
      rw [hassoc]
      refine segB_append.mpr ⟨?_, ?_⟩
      · rw [segB_congr ?_]
        · exact hsegA'
        · intro y hy
          show GET (y + WSIZE) _ = GET (y + WSIZE) s
          rw [GET_PUT_ne (by have := hRnA y (by simp [hy]); omega),
            GET_PUT_ne (by have := hRA'a y hy; omega)]
      · simp only [segB, Bool.and_eq_true, beq_iff_eq]
        refine ⟨by simp, ?_⟩
        have ha' : NEXT_FREE_BLKP a
            (PUT (NEXT_FREE_BLKP x s) a (PUT (a + WSIZE) (NEXT_FREE_BLKP x s) s)) =
            NEXT_FREE_BLKP x s := by
          show GET (a + WSIZE) _ = _
          rw [GET_PUT_ne (by omega), GET_PUT_same]
          exact Nat.mod_eq_of_lt hnbound.2
        rw [ha', segB_congr ?_]
        · exact hsegX'
        · intro y hy
          show GET (y + WSIZE) _ = GET (y + WSIZE) s
          rw [GET_PUT_ne (hyn y hy),
            GET_PUT_ne (by have := hRAB a (by simp) y (by simp [hy]); omega)]
    · rw [hassoc]
      refine prevB_append.mpr ⟨?_, ?_, ?_⟩
      · rw [prevB_congr ?_]
        · exact hprevA'
        · intro y hy
          show GET y _ = GET y s
          rw [GET_PUT_ne (by have := hRnA y (by simp [hy]); omega),
            GET_PUT_ne (by have := hRA'a y hy; omega)]
      · show GET a _ = _
        rw [GET_PUT_ne (by omega), GET_PUT_ne (by omega)]
        exact hprevAa
      · cases B with
        | nil => simp [prevB]
        | cons b B' =>
          simp only [segB, Bool.and_eq_true, beq_iff_eq] at hsegX'
          obtain ⟨hnb, -⟩ := hsegX'
          rw [List.pairwise_cons] at hpwB
          obtain ⟨hRbB', hpwB'⟩ := hpwB
          simp only [prevB, Bool.and_eq_true, beq_iff_eq] at hprevBx
          simp only [prevB, Bool.and_eq_true, beq_iff_eq]
          constructor
          · show GET b _ = a
            rw [← hnb, GET_PUT_same]
            exact Nat.mod_eq_of_lt habound.2
          · rw [prevB_congr ?_]
            · exact hprevBx.2
            · intro y hy
              show GET y _ = GET y s
              rw [GET_PUT_ne (by rw [hnb]; have := hRbB' y hy; omega),
                GET_PUT_ne (by have := hRAB a (by simp) y (by simp [hy]); omega)]
    · intro q hq
      rw [GET_PUT_ne (hq _ hnmem).1,
        GET_PUT_ne (by have := (hq a hamem).2; omega)]

/-- Full characterisation of `addblock` on a well-formed free list: the new
block becomes the head, linked in front of the old chain, and only the two
pointer slots of the new block and the `PREV_FREE_BLKP` slot of the old
head (which is the terminal's slot when the list is empty — see C9) are
written. -/
theorem addblock_spec (s : MM) (t bp : Nat) (L : List Nat)
    (hseg : segB s s.free_listp L t = true)
    (hprev : prevB s 0 L = true)
    (hsep : (t :: bp :: L).Pairwise (fun u v => u + 16 ≤ v ∨ v + 16 ≤ u))
    (hlow : ∀ y ∈ t :: bp :: L, 16 ≤ y ∧ y < MOD32) :
    (addblock bp s).free_listp = bp ∧
    segB (addblock bp s) bp (bp :: L) t = true ∧
    prevB (addblock bp s) 0 (bp :: L) = true ∧
    (∀ q, (∀ y ∈ t :: bp :: L, q ≠ y ∧ q ≠ y + 4) → GET q (addblock bp s) = GET q s) := by
  have hW : WSIZE = 4 := rfl
  have hlowP := hlow
  have hpw := hsep
  rw [List.pairwise_cons] at hpw
  obtain ⟨hRt, hpw2⟩ := hpw
  rw [List.pairwise_cons] at hpw2
  obtain ⟨hRbp, hpwL⟩ := hpw2
  have hbpbound := hlowP bp (by simp)
  have hflp : s.free_listp = t ∨ s.free_listp ∈ L := by
    cases L with
    | nil =>
      left
      simpa [segB] using hseg
    | cons y L' =>
      right
      simp only [segB, Bool.and_eq_true, beq_iff_eq] at hseg
      rw [hseg.1]
      simp
  have hflpmem : s.free_listp ∈ t :: bp :: L := by
    rcases hflp with h | h
    · simp [h]
    · simp [h]
  have hflpbound := hlowP _ hflpmem
  have hRflpbp : bp + 16 ≤ s.free_listp ∨ s.free_listp + 16 ≤ bp := by
    rcases hflp with h | h
    · rw [h]
      exact (hRt bp (by simp)).symm
    · exact hRbp _ h
  have hflpbp : s.free_listp ≠ bp := by omega
  have hflpy : ∀ y ∈ L, y + WSIZE ≠ s.free_listp := by
    intro y hy
    rcases hflp with h | h
    · have := hRt y (by simp [hy])
      rw [h]
      omega
    · rcases eq_or_ne s.free_listp y with rfl | hne
      · omega
      · have := hpwL.forall (fun u v hh => hh.symm) h hy hne
        omega
  have heq : addblock bp s =
      { PUT bp 0 (PUT s.free_listp bp (PUT (bp + WSIZE) s.free_listp s)) with
        free_listp := bp } := rfl
  rw [heq]
  refine ⟨rfl, ?_, ?_, ?_⟩
  · simp only [segB, Bool.and_eq_true, beq_iff_eq]
    refine ⟨by simp, ?_⟩
    have hnext : NEXT_FREE_BLKP bp
        { PUT bp 0 (PUT s.free_listp bp (PUT (bp + WSIZE) s.free_listp s)) with
          free_listp := bp } = s.free_listp := by
      show GET (bp + WSIZE) _ = _
      rw [GET_set_free_listp, GET_PUT_ne (by omega), GET_PUT_ne (by omega), GET_PUT_same]
      exact Nat.mod_eq_of_lt hflpbound.2
    rw [hnext, segB_congr ?_]
    · exact hseg
    · intro y hy
      have hRy := hRbp y hy
      show GET (y + WSIZE) _ = GET (y + WSIZE) s
      rw [GET_set_free_listp, GET_PUT_ne (by omega), GET_PUT_ne (hflpy y hy),
        GET_PUT_ne (by omega)]
  · simp only [prevB, Bool.and_eq_true, beq_iff_eq]
    constructor
    · show GET bp _ = 0
      rw [GET_set_free_listp, GET_PUT_same]
      simp
    · cases L with
      | nil => simp [prevB]
      | cons y L' =>
        have hfy : s.free_listp = y := by
          simp only [segB, Bool.and_eq_true, beq_iff_eq] at hseg
          exact hseg.1
        rw [List.pairwise_cons] at hpwL
        obtain ⟨hRyL', hpwL'⟩ := hpwL
        simp only [prevB, Bool.and_eq_true, beq_iff_eq] at hprev
        simp only [prevB, Bool.and_eq_true, beq_iff_eq]
        constructor
        · show GET y _ = bp
          have hybp := hRbp y (by simp)
          rw [GET_set_free_listp, GET_PUT_ne (by omega), ← hfy, GET_PUT_same]
          exact Nat.mod_eq_of_lt hbpbound.2
        · rw [prevB_congr ?_]
          · exact hprev.2
          · intro z hz
            have hRz := hRbp z (by simp [hz])
            have hRyz := hRyL' z hz
            show GET z _ = GET z s
            rw [GET_set_free_listp, GET_PUT_ne (by omega),
              GET_PUT_ne (by rw [hfy]; omega), GET_PUT_ne (by omega)]
  · intro q hq
    rw [GET_set_free_listp, GET_PUT_ne (hq bp (by simp)).1,
      GET_PUT_ne (hq _ hflpmem).1, GET_PUT_ne (by have := (hq bp (by simp)).2; omega)]

/-! ### The first-fit search -/

theorem find_fit_loop_spec (s : MM) (asize : Nat) :
    ∀ (L : List Nat) (p t fuel : Nat),
      segB s p L t = true →
      GET_ALLOC (HDRP t) s ≠ 0 →
      allFree s L = true →
      L.length < fuel →
      find_fit_loop asize p s fuel =
        match L.find? (fun b => decide (asize ≤ GET_SIZE (HDRP b) s)) with
        | some b => FitRes.found b
        | none => FitRes.miss := by
  intro L
  induction L with
  | nil =>
    intro p t fuel hseg ht _ hfuel
    obtain ⟨fuel, rfl⟩ : ∃ f, fuel = f + 1 := ⟨fuel - 1, by omega⟩
    have hp : p = t := by simpa [segB] using hseg
    subst hp
    simp only [find_fit_loop, List.find?_nil]
    rw [if_neg ht]
  | cons b L ih =>
    intro p t fuel hseg ht hfree hfuel
    obtain ⟨fuel, rfl⟩ : ∃ f, fuel = f + 1 := ⟨fuel - 1, by omega⟩
    simp only [segB, Bool.and_eq_true, beq_iff_eq] at hseg
    obtain ⟨rfl, hseg⟩ := hseg
    simp only [allFree, List.all_cons, Bool.and_eq_true, beq_iff_eq] at hfree
    obtain ⟨hb, hfree⟩ := hfree
    simp only [find_fit_loop, List.find?_cons]
    rw [if_pos hb]
    by_cases hfit : asize ≤ GET_SIZE (HDRP p) s
    · rw [if_pos ⟨hb, hfit⟩]
      simp [hfit]
    · rw [if_neg (by tauto)]
      rw [ih (NEXT_FREE_BLKP p s) t fuel hseg ht (by simp [allFree, hfree]) (by simpa using hfuel)]
      simp [hfit]

theorem find_fit_found {asize fuel bp : Nat} {s : MM}
    (h : find_fit_loop asize s.free_listp s fuel = .found bp) :
    find_fit asize fuel s = some (some bp, s) := by
  unfold find_fit
  rw [h]

theorem find_fit_miss {asize fuel : Nat} {s : MM}
    (h : find_fit_loop asize s.free_listp s fuel = .miss) :
    find_fit asize fuel s = some (extend_heap (asize / WSIZE) s) := by
  unfold find_fit
  rw [h]

/-- C1: for every `allocate(n)` with `n > 0` for which some block of the
free list fits the adjusted size, the block chosen for placement (and
returned) is the first block, scanning the free list from the head, whose
size is at least the adjusted size — first-fit in head-first list order
(`List.find?` is exactly first-match in scan order). -/
theorem C1_first_fit (size fuel : Nat) (s : MM) (L : List Nat) (t b : Nat)
    (hsz : size ≠ 0)
    (hchain : segB s s.free_listp L t = true)
    (ht : GET_ALLOC (HDRP t) s ≠ 0)
    (hfree : allFree s L = true)
    (hfuel : L.length < fuel)
    (hfind : L.find? (fun x => decide (adjustSize size ≤ GET_SIZE (HDRP x) s)) = some b) :
    ∃ s', mm_malloc size fuel s = some (some b, s') := by
  refine ⟨place b (adjustSize size) s, ?_⟩
  have hloop := find_fit_loop_spec s (adjustSize size) L s.free_listp t fuel hchain ht hfree hfuel
  rw [hfind] at hloop
  unfold mm_malloc
  rw [if_neg hsz]
  simp only [find_fit_found hloop]

/-- Witness for C1 at a concrete reachable state: after `init()`, the free
list is `[32]` with terminal prologue `16`; `allocate(8)` (adjusted size 16)
chooses block 32, the first fit. -/
theorem C1_first_fit_witness :
    (List.find? (fun x => decide (adjustSize 8 ≤ GET_SIZE (HDRP x) initState)) [32] = some 32) ∧
    (∃ s', mm_malloc 8 5 initState = some (some 32, s')) :=
  ⟨by decide,
    C1_first_fit 8 5 initState [32] 16 32 (by decide) (by decide) (by decide) (by decide)
      (by decide) (by decide)⟩

/-- C2: evidence that the header/footer agreement invariant fails on the
code.  Already at the quiescent point right after a successful `init()`, the
prologue block (at `heap_listp + DSIZE`) has header `PACK(OVERHEAD,1) = 9`
but its footer word was overwritten by `addblock` (inserting the first free
block into the empty list writes the block's address, here 32, through the
head pointer, which still designates the prologue), so its own `checkblock`
test reports a violation. -/
theorem C2_prologue_header_footer_mismatch :
    mm_init (initialMM 100000) = some initState ∧
    GET (HDRP (initState.heap_listp + DSIZE)) initState = PACK OVERHEAD 1 ∧
    GET (FTRP (initState.heap_listp + DSIZE) initState) initState = 32 ∧
    GET (HDRP (initState.heap_listp + DSIZE)) initState ≠
      GET (FTRP (initState.heap_listp + DSIZE) initState) initState ∧
    checkblock (initState.heap_listp + DSIZE) initState = false :=
  ⟨rfl, by decide, by decide, by decide, by decide⟩

/-- C8: `allocate(0)` always returns the failure sentinel and returns the
very same state: no arena interaction, no free-list or heap-extent
mutation. -/
theorem C8_malloc_zero (fuel : Nat) (s : MM) : mm_malloc 0 fuel s = some (none, s) := rfl

/-! ### Behaviour of addblock on the raw words -/

theorem GET_addblock_old_head {s : MM} {bp : Nat} (h : s.free_listp ≠ bp) :
    GET s.free_listp (addblock bp s) = bp % MOD32 := by
  unfold addblock
  simp only [GET_set_free_listp, PUT_free_listp]
  rw [GET_PUT_ne h, GET_PUT_same]

theorem GET_addblock_self (s : MM) (bp : Nat) :
    GET bp (addblock bp s) = 0 := by
  unfold addblock
  simp only [GET_set_free_listp]
  rw [GET_PUT_same]
  rfl

theorem GET_addblock_slot {s : MM} {bp : Nat} (h1 : bp + WSIZE ≠ s.free_listp)
    (h2 : bp + WSIZE ≠ bp) :
    GET (bp + WSIZE) (addblock bp s) = s.free_listp % MOD32 := by
  unfold addblock
  simp only [GET_set_free_listp, PUT_free_listp]
  rw [GET_PUT_ne h2, GET_PUT_ne h1, GET_PUT_same]

theorem GET_addblock_other {s : MM} {bp q : Nat} (h1 : q ≠ bp) (h2 : q ≠ bp + WSIZE)
    (h3 : q ≠ s.free_listp) :
    GET q (addblock bp s) = GET q s := by
  unfold addblock
  simp only [GET_set_free_listp, PUT_free_listp]
  rw [GET_PUT_ne h1, GET_PUT_ne h3, GET_PUT_ne h2]

/-- C9: inserting a block at the head of the free list writes the new
block's address into the `PREV_FREE_BLKP` slot of the current head
unconditionally — for every state, with no special case for an empty list
(no hypothesis about the head designating a real free block is needed: the
write also happens when the head designates the allocated prologue
sentinel, as the witness shows). -/
theorem C9_addblock_unconditional (s : MM) (bp : Nat)
    (hne : s.free_listp ≠ bp) (hlt : bp < MOD32) :
    PREV_FREE_BLKP s.free_listp (addblock bp s) = bp ∧ (addblock bp s).free_listp = bp := by
  refine ⟨?_, rfl⟩
  show GET s.free_listp (addblock bp s) = bp
  rw [GET_addblock_old_head hne]
  exact Nat.mod_eq_of_lt hlt

/-- Witness for C9 at a reachable empty-list state: in `c5state`
(`init(); allocate(8)` on the tight arena) the free list is empty — the
head designates the allocated prologue block 16 — yet `addblock 32` still
writes 32 into the word at address 16 (the prologue footer). -/
theorem C9_addblock_unconditional_witness :
    GET_ALLOC (HDRP c5state.free_listp) c5state = 1 ∧
    (PREV_FREE_BLKP c5state.free_listp (addblock 32 c5state) = 32 ∧
      (addblock 32 c5state).free_listp = 32) :=
  ⟨by decide, C9_addblock_unconditional c5state 32 (by decide) (by decide)⟩

/-! ### Heap extension -/

theorem extendSizeOf_even {words : Nat} (hw : words % 2 = 0)
    (hge : OVERHEAD + OVERHEAD ≤ words * WSIZE) :
    extendSizeOf words = words * WSIZE := by
  have hW : WSIZE = 4 := rfl
  unfold extendSizeOf
  rw [if_neg (by omega : ¬ words % 2 = 1)]
  rcases Nat.lt_or_ge (OVERHEAD + OVERHEAD) (words * WSIZE) with hgt | hle
  · rw [if_pos hgt]
  · rw [if_neg (by omega)]
    omega

theorem extend_heap_fail {words : Nat} {s : MM} (hw : words % 2 = 0)
    (hge : OVERHEAD + OVERHEAD ≤ words * WSIZE)
    (hcap : s.cap < s.brk + words * WSIZE) :
    extend_heap words s = (none, s) := by
  unfold extend_heap
  rw [extendSizeOf_even hw hge]
  unfold mem_sbrk
  rw [if_neg (by omega)]

theorem extend_heap_success {words : Nat} {s : MM} (hw : words % 2 = 0)
    (hge : OVERHEAD + OVERHEAD ≤ words * WSIZE)
    (hcap : s.brk + words * WSIZE ≤ s.cap) :
    ∃ bp s', extend_heap words s = (some bp, s') ∧ s'.brk = s.brk + words * WSIZE ∧
      s'.cap = s.cap := by
  unfold extend_heap
  rw [extendSizeOf_even hw hge]
  unfold mem_sbrk
  rw [if_pos (by omega)]
  exact ⟨_, _, rfl, by simp, by simp⟩

theorem adjustSize_facts (size : Nat) :
    adjustSize size % 8 = 0 ∧
    (size + OVERHEAD + (DSIZE - 1) < MOD32 → 16 ≤ adjustSize size) := by
  constructor
  · unfold adjustSize DSIZE OVERHEAD
    split <;> omega
  · intro h
    unfold adjustSize
    by_cases hle : size ≤ DSIZE
    · rw [if_pos hle]
      decide
    · rw [if_neg hle, Nat.mod_eq_of_lt h]
      have hD : DSIZE = 8 := rfl
      have hO : OVERHEAD = 8 := rfl
      rw [hD, hO]
      rw [hD] at hle
      omega

/-- for an 8-aligned byte count `asize`, the extension `extend_heap` makes
out of `asize / WSIZE` words is exactly `asize` clamped up to the 16-byte
minimum (`OVERHEAD + OVERHEAD`). -/
theorem extendSizeOf_aligned {asize : Nat} (h8 : asize % 8 = 0) :
    extendSizeOf (asize / WSIZE) = MAX asize (OVERHEAD + OVERHEAD) := by
  have hW : WSIZE = 4 := rfl
  have hO : OVERHEAD = 8 := rfl
  unfold extendSizeOf MAX
  rw [hW, hO]
  rw [if_neg (by omega : ¬ asize / 4 % 2 = 1)]
  have h44 : asize / 4 * 4 = asize := by omega
  rw [h44]

theorem extend_heap_fail_aligned {asize : Nat} {s : MM} (h8 : asize % 8 = 0)
    (hcap : s.cap < s.brk + MAX asize (OVERHEAD + OVERHEAD)) :
    extend_heap (asize / WSIZE) s = (none, s) := by
  unfold extend_heap
  rw [extendSizeOf_aligned h8]
  unfold mem_sbrk
  rw [if_neg (by omega)]

theorem extend_heap_success_aligned {asize : Nat} {s : MM} (h8 : asize % 8 = 0)
    (hcap : s.brk + MAX asize (OVERHEAD + OVERHEAD) ≤ s.cap) :
    ∃ bp s', extend_heap (asize / WSIZE) s = (some bp, s') ∧
      s'.brk = s.brk + MAX asize (OVERHEAD + OVERHEAD) ∧ s'.cap = s.cap := by
  unfold extend_heap
  rw [extendSizeOf_aligned h8]
  unfold mem_sbrk
  rw [if_pos (by omega)]
  exact ⟨_, _, rfl, by simp, by simp⟩

/-- C4 counterexample: at `initState` the free list is `[32]` and holds no
block of the adjusted size 112, so `allocate(100)` takes the miss path; the
heap is extended by the adjusted size 112 (break 48 → 160), not by
`max(adjustedSize, chunkSize) = max(112, 4096) = 4096` bytes as the claim
states. -/
theorem C4_counterexample :
    segB initState initState.free_listp [32] 16 = true ∧
    allFree initState [32] = true ∧
    GET_ALLOC (HDRP 16) initState ≠ 0 ∧
    List.find? (fun x => decide (adjustSize 100 ≤ GET_SIZE (HDRP x) initState)) [32] = none ∧
    (mm_malloc 100 50 initState).map (fun r => r.2.brk) =
      some (initState.brk + adjustSize 100) ∧
    adjustSize 100 = 112 ∧ initState.brk = 48 ∧
    MAX (adjustSize 100) CHUNKSIZE = 4096 ∧ (112 : Nat) ≠ 4096 := by
  refine ⟨by decide, by decide, by decide, by decide, by decide, by decide, by decide,
    by decide, by decide⟩

/-- C4 (amended): for every `allocate` whose first-fit search finds no fit,
the heap is extended by `max(adjustedSize, 16)` bytes — the extension is
performed inside `find_fit` itself, and the 16-byte floor is `extend_heap`'s
minimum-block clamp (`OVERHEAD + OVERHEAD`), which only engages for
wrap-corner requests (`size ≥ 2^32 - 15`, where the 32-bit adjusted-size
computation wraps to 0 or 8); for every other request the extension is
exactly `adjustedSize` bytes, not `max(adjustedSize, chunkSize)`.  The
`max(adjustedSize, chunkSize)` extension in `allocate` is only a second
attempt taken after `find_fit`'s own extension has already failed.  The
extended-and-coalesced block then becomes the placement candidate, and if
the arena cannot accommodate that first extension the allocation fails,
returning the failure sentinel with the state unchanged. -/
theorem C4_miss_extends_by_adjusted_size (size fuel : Nat) (s : MM) (L : List Nat) (t : Nat)
    (hsz : size ≠ 0)
    (hchain : segB s s.free_listp L t = true)
    (ht : GET_ALLOC (HDRP t) s ≠ 0)
    (hfree : allFree s L = true)
    (hfuel : L.length < fuel)
    (hmiss : L.find? (fun x => decide (adjustSize size ≤ GET_SIZE (HDRP x) s)) = none) :
    (s.brk + MAX (adjustSize size) (OVERHEAD + OVERHEAD) ≤ s.cap →
      ∃ bp s', mm_malloc size fuel s = some (some bp, s') ∧
        s'.brk = s.brk + MAX (adjustSize size) (OVERHEAD + OVERHEAD)) ∧
    (s.cap < s.brk + MAX (adjustSize size) (OVERHEAD + OVERHEAD) →
      mm_malloc size fuel s = some (none, s)) := by
  have hloop := find_fit_loop_spec s (adjustSize size) L s.free_listp t fuel hchain ht hfree hfuel
  rw [hmiss] at hloop
  have h8 := (adjustSize_facts size).1
  have hW : WSIZE = 4 := rfl
  have hO : OVERHEAD = 8 := rfl
  have hC : CHUNKSIZE = 4096 := rfl
  constructor
  · intro hcap
    obtain ⟨bp, s', heq, hbrk, hcap'⟩ := extend_heap_success_aligned h8 hcap
    refine ⟨bp, place bp (adjustSize size) s', ?_, ?_⟩
    · unfold mm_malloc
      rw [if_neg hsz, find_fit_miss hloop, heq]
    · rw [place_brk, hbrk]
  · intro hcap
    have hfail : extend_heap (adjustSize size / WSIZE) s = (none, s) :=
      extend_heap_fail_aligned h8 hcap
    have hcap' : s.cap < s.brk + (if adjustSize size > OVERHEAD + OVERHEAD
        then adjustSize size else OVERHEAD + OVERHEAD) := hcap
    have hcapA : s.cap < s.brk + adjustSize size ∨
        (adjustSize size ≤ OVERHEAD + OVERHEAD ∧
          s.cap < s.brk + (OVERHEAD + OVERHEAD)) := by
      by_cases hgt : adjustSize size > OVERHEAD + OVERHEAD
      · rw [if_pos hgt] at hcap'
        exact Or.inl hcap'
      · rw [if_neg hgt] at hcap'
        exact Or.inr ⟨by omega, hcap'⟩
    have hw2 : (MAX (adjustSize size) CHUNKSIZE / WSIZE) % 2 = 0 := by
      unfold MAX
      rw [hW, hC]
      split <;> omega
    have hge2 : OVERHEAD + OVERHEAD ≤ (MAX (adjustSize size) CHUNKSIZE / WSIZE) * WSIZE := by
      unfold MAX
      rw [hW, hO, hC]
      split <;> omega
    have hcap2 : s.cap < s.brk + (MAX (adjustSize size) CHUNKSIZE / WSIZE) * WSIZE := by
      unfold MAX
      rw [hW, hC]
      rw [hO] at hcapA
      rcases hcapA with h | h <;> split <;> omega
    have hfail2 : extend_heap (MAX (adjustSize size) CHUNKSIZE / WSIZE) s = (none, s) :=
      extend_heap_fail hw2 hge2 hcap2
    unfold mm_malloc
    rw [if_neg hsz, find_fit_miss hloop, hfail]
    show (match extend_heap (MAX (adjustSize size) CHUNKSIZE / WSIZE) s with
      | (none, s2) => some (none, s2)
      | (some bp, s2) => some (some bp, place bp (adjustSize size) s2)) = some (none, s)
    rw [hfail2]

/-- Witness for C4 (amended) at two concrete reachable states:
`allocate(100)` at `initState` misses and the break grows by
`max(adjustedSize, 16) = adjustedSize = 112`; and at the wrap corner,
`allocate(2^32 - 1)` at the empty-free-list state `c4state` has wrapped
adjusted size 8, so the break grows by the 16-byte clamp, not by the
adjusted size. -/
theorem C4_miss_extends_witness :
    (∃ bp s', mm_malloc 100 50 initState = some (some bp, s') ∧
      s'.brk = initState.brk + MAX (adjustSize 100) (OVERHEAD + OVERHEAD)) ∧
    (∃ bp s', mm_malloc (2 ^ 32 - 1) 9 c4state = some (some bp, s') ∧
      s'.brk = c4state.brk + MAX (adjustSize (2 ^ 32 - 1)) (OVERHEAD + OVERHEAD)) :=
  ⟨(C4_miss_extends_by_adjusted_size 100 50 initState [32] 16 (by decide) (by decide)
      (by decide) (by decide) (by decide) (by decide)).1 (by decide),
    (C4_miss_extends_by_adjusted_size (2 ^ 32 - 1) 9 c4state [] 16 (by decide) (by decide)
      (by decide) (by decide) (by decide) (by decide)).1 (by decide)⟩

/-- C5 counterexample: on the capacity-48 arena, `init(); A := allocate(8)`
reaches `c5state`; `resize(A, 100)` takes the fallback path, its internal
`allocate(100)` fails (the arena cannot grow), and the call terminates the
process with exit code 1 — it does not return any pointer, contrary to the
claim that it returns a failure sentinel without terminating. -/
theorem C5_counterexample :
    mm_init (initialMM 48) = some initTight ∧
    mm_malloc 8 9 initTight = some (some 32, c5state) ∧
    (mm_malloc 100 9 c5state).map (fun r => r.1) = some none ∧
    rresExitCode (mm_realloc 32 100 9 c5state) = some 1 ∧
    rresPtr (mm_realloc 32 100 9 c5state) = none := by
  refine ⟨rfl, rfl, by decide, by decide, by decide⟩

/-- C5 (amended): a `resize` that reaches the fallback (allocate-copy-free)
path and whose internal allocation fails does not return a failure sentinel
to the caller — it terminates the process via `exit(1)` (after printing an
error message), exactly the behaviour the spec flags as an anti-pattern. -/
theorem C5_fallback_failure_exits (ptr size fuel : Nat) (s s1 : MM)
    (h1 : ¬ reallocAdjust size ≤ GET_SIZE (HDRP ptr) s)
    (h2 : ¬ (GET_SIZE (HDRP ptr) s + OVERHEAD) % MOD32 ≤ GET_SIZE (HDRP ptr) s)
    (h3 : ¬ (GET_ALLOC (HDRP (NEXT_BLKP ptr s)) s = 0 ∧
        reallocAdjust size ≤ GET_SIZE (HDRP (NEXT_BLKP ptr s)) s + GET_SIZE (HDRP ptr) s))
    (hm : mm_malloc size fuel s = some (none, s1)) :
    mm_realloc ptr size fuel s = .exited 1 s1 := by
  unfold mm_realloc
  rw [if_neg h1, if_neg h2, if_neg h3, hm]

/-- Witness for C5 (amended) at the concrete failing resize of the
counterexample state. -/
theorem C5_fallback_failure_exits_witness :
    mm_realloc 32 100 9 c5state = RRes.exited 1 c5state :=
  C5_fallback_failure_exits 32 100 9 c5state c5state (by decide) (by decide) (by decide) rfl

theorem GET_PUT_same_small {v : Nat} (p : Nat) (s : MM) (h : v < MOD32) :
    GET p (PUT p v s) = v := by
  rw [GET_PUT_same]
  exact Nat.mod_eq_of_lt h

theorem GET_SIZE_mod8 (p : Nat) (s : MM) : GET_SIZE p s % 8 = 0 := by
  unfold GET_SIZE
  omega

theorem reallocAdjust_facts (size : Nat) :
    reallocAdjust size % 8 = 0 ∧ 24 ≤ reallocAdjust size := by
  have h32 : MOD32 = 4294967296 := rfl
  unfold reallocAdjust OVERHEAD
  rw [h32]
  split <;> omega

/-- C6 (amended): the shrink path of `resize`.  When the new adjusted size
fits inside the current block: if the shrink leaves a remainder strictly
greater than `3*OVERHEAD` (24 bytes), the block is split — the front keeps
the new adjusted size as an allocated block (header and footer rewritten),
the remainder is written as a new block and routed through release
(`mm_free`, hence the coalescer) so it can merge with a following free
block, and the same pointer is returned; if the remainder is at most 24
bytes — which includes remainders of exactly one minimum block size — the
call returns the same pointer with the state completely unchanged (the
block keeps its original size). -/
theorem C6_shrink (ptr size fuel : Nat) (s : MM)
    (hptr : 16 ≤ ptr)
    (hv : GET (HDRP ptr) s < MOD32)
    (hle : reallocAdjust size ≤ GET_SIZE (HDRP ptr) s) :
    (GET_SIZE (HDRP ptr) s - reallocAdjust size ≤ 3 * OVERHEAD →
      mm_realloc ptr size fuel s = .ret ptr s) ∧
    (3 * OVERHEAD < GET_SIZE (HDRP ptr) s - reallocAdjust size →
      ∃ smid, mm_realloc ptr size fuel s = .ret ptr (mm_free (NEXT_BLKP ptr smid) smid) ∧
        NEXT_BLKP ptr smid = ptr + reallocAdjust size ∧
        GET (HDRP ptr) smid = PACK (reallocAdjust size) 1 ∧
        GET (FTRP ptr smid) smid = PACK (reallocAdjust size) 1 ∧
        GET (HDRP (ptr + reallocAdjust size)) smid =
          PACK (GET_SIZE (HDRP ptr) s - reallocAdjust size) 1) := by
  have hO : OVERHEAD = 8 := rfl
  have hW : WSIZE = 4 := rfl
  have hD : DSIZE = 8 := rfl
  have hrs := reallocAdjust_facts size
  have hcs8 : GET_SIZE (HDRP ptr) s % 8 = 0 := GET_SIZE_mod8 _ _
  have hcslt : GET_SIZE (HDRP ptr) s < MOD32 := lt_of_le_of_lt (Nat.sub_le _ _) hv
  have hM8 : MOD32 % 8 = 0 := by decide
  constructor
  · intro hsmall
    unfold mm_realloc
    rw [if_pos hle, if_pos hsmall]
  · intro hbig
    have hpack1 : PACK (reallocAdjust size) 1 = reallocAdjust size + 1 :=
      PACK_alloc1 (by omega)
    have hpacklt : PACK (reallocAdjust size) 1 < MOD32 := by omega
    have hpack2 : PACK (GET_SIZE (HDRP ptr) s - reallocAdjust size) 1 =
        GET_SIZE (HDRP ptr) s - reallocAdjust size + 1 := PACK_alloc1 (by omega)
    have hpack2lt : PACK (GET_SIZE (HDRP ptr) s - reallocAdjust size) 1 < MOD32 := by omega
    have hHD : HDRP ptr = ptr - 4 := rfl
    -- step 1: the new header
    have g1 : GET (HDRP ptr) (PUT (HDRP ptr) (PACK (reallocAdjust size) 1) s) =
        PACK (reallocAdjust size) 1 := GET_PUT_same_small _ _ hpacklt
    have z1 : GET_SIZE (HDRP ptr) (PUT (HDRP ptr) (PACK (reallocAdjust size) 1) s) =
        reallocAdjust size := GET_SIZE_eq g1 (by omega) (Or.inr rfl)
    have e1 : FTRP ptr (PUT (HDRP ptr) (PACK (reallocAdjust size) 1) s) =
        ptr + reallocAdjust size - 8 := by
      unfold FTRP
      rw [z1, hD]
    -- step 2: the new footer (address ptr + rs - 8)
    have g2 : GET (HDRP ptr)
        (PUT (ptr + reallocAdjust size - 8) (PACK (reallocAdjust size) 1)
          (PUT (HDRP ptr) (PACK (reallocAdjust size) 1) s)) =
        PACK (reallocAdjust size) 1 := by
      rw [GET_PUT_ne (by rw [hHD]; omega), g1]
    have z2 : GET_SIZE (HDRP ptr)
        (PUT (ptr + reallocAdjust size - 8) (PACK (reallocAdjust size) 1)
          (PUT (HDRP ptr) (PACK (reallocAdjust size) 1) s)) =
        reallocAdjust size := GET_SIZE_eq g2 (by omega) (Or.inr rfl)
    have e2 : NEXT_BLKP ptr
        (PUT (ptr + reallocAdjust size - 8) (PACK (reallocAdjust size) 1)
          (PUT (HDRP ptr) (PACK (reallocAdjust size) 1) s)) =
        ptr + reallocAdjust size := by
      unfold NEXT_BLKP
      rw [show ptr - WSIZE = HDRP ptr from rfl, z2]
    have z3 : GET_SIZE (HDRP ptr)
        (PUT (ptr + reallocAdjust size - 4)
          (PACK (GET_SIZE (HDRP ptr) s - reallocAdjust size) 1)
          (PUT (ptr + reallocAdjust size - 8) (PACK (reallocAdjust size) 1)
            (PUT (HDRP ptr) (PACK (reallocAdjust size) 1) s))) = reallocAdjust size :=
      GET_SIZE_eq (by rw [GET_PUT_ne (by rw [hHD]; omega), g2]) (by omega) (Or.inr rfl)
    unfold mm_realloc
    rw [if_pos hle, if_neg (not_le.mpr hbig)]
    refine ⟨_, rfl, ?_, ?_, ?_, ?_⟩
    · rw [e1, e2, show HDRP (ptr + reallocAdjust size) = ptr + reallocAdjust size - 4 from rfl]
      unfold NEXT_BLKP
      rw [show ptr - WSIZE = HDRP ptr from rfl, z3]
    · rw [e1, e2, show HDRP (ptr + reallocAdjust size) = ptr + reallocAdjust size - 4 from rfl]
      rw [GET_PUT_ne (by rw [hHD]; omega), g2]
    · rw [e1, e2, show HDRP (ptr + reallocAdjust size) = ptr + reallocAdjust size - 4 from rfl]
      unfold FTRP
      rw [z3, hD]
      rw [GET_PUT_ne (by omega), GET_PUT_same_small _ _ hpacklt]
    · rw [e1, e2, show HDRP (ptr + reallocAdjust size) = ptr + reallocAdjust size - 4 from rfl]
      rw [GET_PUT_same_small _ _ hpack2lt]

/-- Witness for C6 (amended) at the concrete state of the counterexample:
remainder `48 - 24 = 24 ≤ 24`, so `resize` returns the pointer with the
state unchanged. -/
theorem C6_shrink_witness :
    (GET_SIZE (HDRP 32) c6state - reallocAdjust 16 ≤ 3 * OVERHEAD) ∧
    mm_realloc 32 16 9 c6state = RRes.ret 32 c6state :=
  ⟨by decide, (C6_shrink 32 16 9 c6state (by decide) (by decide) (by decide)).1 (by decide)⟩

/-- C7: `place bp asize` on a free-list block of size `csize`.  If
`csize - asize` is at least one minimum block size (`DSIZE + OVERHEAD`),
the block is split: the front `asize` bytes become an allocated block with
rewritten header and footer, the block is removed from the free list (the
chain then threads exactly `A ++ B`), and the remainder becomes a new free
block (header and footer `PACK (csize - asize) 0`) routed through
coalescing — the result is literally `coalesce` applied to the remainder.
Otherwise the whole block of size `csize` is marked allocated (header and
footer `PACK csize 1`) and removed from the free list. -/
theorem C7_place (s : MM) (t bp csize asize : Nat) (A B : List Nat)
    (hhdr : GET (HDRP bp) s = csize)
    (hcs8 : csize % 8 = 0)
    (hcslt : csize < MOD32)
    (has8 : asize % 8 = 0)
    (hasge : 16 ≤ asize)
    (hasle : asize ≤ csize)
    (hbp : 16 ≤ bp)
    (hseg : segB s s.free_listp (A ++ bp :: B) t = true)
    (hprev : prevB s 0 (A ++ bp :: B) = true)
    (hsep : (t :: (A ++ bp :: B)).Pairwise (fun u v => u + 16 ≤ v ∨ v + 16 ≤ u))
    (hlow : ∀ y ∈ t :: (A ++ bp :: B), 16 ≤ y ∧ y < MOD32)
    (hext : ∀ y ∈ t :: (A ++ bp :: B), y = bp ∨ y + 16 ≤ bp ∨ bp + csize ≤ y) :
    (DSIZE + OVERHEAD ≤ csize - asize →
      ∃ smid, place bp asize s = (coalesce (bp + asize) smid).2 ∧
        GET (HDRP bp) smid = PACK asize 1 ∧
        GET (bp + asize - 8) smid = PACK asize 1 ∧
        GET (HDRP (bp + asize)) smid = PACK (csize - asize) 0 ∧
        GET (bp + csize - 8) smid = PACK (csize - asize) 0 ∧
        segB smid smid.free_listp (A ++ B) t = true ∧
        prevB smid 0 (A ++ B) = true) ∧
    (csize - asize < DSIZE + OVERHEAD →
      GET (HDRP bp) (place bp asize s) = PACK csize 1 ∧
      GET (bp + csize - 8) (place bp asize s) = PACK csize 1 ∧
      segB (place bp asize s) (place bp asize s).free_listp (A ++ B) t = true ∧
      prevB (place bp asize s) 0 (A ++ B) = true) := by
  have hO : OVERHEAD = 8 := rfl
  have hW : WSIZE = 4 := rfl
  have hD : DSIZE = 8 := rfl
  have hHD : HDRP bp = bp - 4 := rfl
  have hM8 : MOD32 % 8 = 0 := by decide
  have hzs : GET_SIZE (HDRP bp) s = csize := by
    unfold GET_SIZE
    rw [hhdr]
    omega
  have hsub : sub32 csize asize = csize - asize := sub32_eq_sub hasle hcslt
  have hpa1 : PACK asize 1 = asize + 1 := PACK_alloc1 (by omega)
  have hpa1lt : PACK asize 1 < MOD32 := by omega
  have hpc0 : PACK (csize - asize) 0 = csize - asize := PACK_alloc0 _
  have hpc0lt : PACK (csize - asize) 0 < MOD32 := by
    rw [hpc0]
    omega
  have hpcs1 : PACK csize 1 = csize + 1 := PACK_alloc1 (by omega)
  have hpcs1lt : PACK csize 1 < MOD32 := by omega
  have havoid : ∀ addr, (addr = bp - 4 ∨ (bp + 8 ≤ addr ∧ addr + 8 ≤ bp + csize)) →
      ∀ y ∈ t :: (A ++ bp :: B), addr ≠ y ∧ addr ≠ y + 4 := by
    intro addr haddr y hy
    rcases haddr with rfl | haddr <;> rcases hext y hy with rfl | h | h <;>
      exact ⟨by omega, by omega⟩
  constructor
  · -- the split branch
    intro h16
    have hvhdr := havoid (bp - 4) (Or.inl rfl)
    have hvftr := havoid (bp + asize - 8) (by omega)
    have hvrh := havoid (bp + asize - 4) (by omega)
    have hvrf := havoid (bp + csize - 8) (by omega)
    have hguard : DSIZE + OVERHEAD ≤ sub32 (GET_SIZE (HDRP bp) s) asize := by
      rw [hzs, hsub]
      exact h16
    simp only [place]
    rw [if_pos hguard, hzs, hsub]
    have hf1 : FTRP bp (PUT (HDRP bp) (PACK asize 1) s) = bp + asize - 8 := by
      unfold FTRP
      rw [GET_SIZE_eq (GET_PUT_same_small (HDRP bp) s hpa1lt) (by omega) (Or.inr rfl), hD]
    rw [hf1]
    have hhdr2 : GET (HDRP bp)
        (PUT (bp + asize - 8) (PACK asize 1) (PUT (HDRP bp) (PACK asize 1) s)) =
        PACK asize 1 := by
      rw [GET_PUT_ne (by rw [hHD]; omega), GET_PUT_same_small (HDRP bp) s hpa1lt]
    have hseg2 : segB
        (PUT (bp + asize - 8) (PACK asize 1) (PUT (HDRP bp) (PACK asize 1) s))
        (PUT (bp + asize - 8) (PACK asize 1) (PUT (HDRP bp) (PACK asize 1) s)).free_listp
        (A ++ bp :: B) t = true := by
      simp only [PUT_free_listp]
      rw [segB_congr ?_]
      · exact hseg
      · intro y hy
        show GET (y + WSIZE) _ = GET (y + WSIZE) s
        rw [GET_PUT_ne (by have := (hvftr y (by simp [hy])).2; omega),
          GET_PUT_ne (by rw [hHD]; have := (hvhdr y (by simp [hy])).2; omega)]
    have hprev2 : prevB
        (PUT (bp + asize - 8) (PACK asize 1) (PUT (HDRP bp) (PACK asize 1) s))
        0 (A ++ bp :: B) = true := by
      rw [prevB_congr ?_]
      · exact hprev
      · intro y hy
        show GET y _ = GET y s
        rw [GET_PUT_ne (by have := (hvftr y (by simp [hy])).1; omega),
          GET_PUT_ne (by rw [hHD]; have := (hvhdr y (by simp [hy])).1; omega)]
    obtain ⟨hseg3, hprev3, hframe3⟩ := removeblock_spec
      (PUT (bp + asize - 8) (PACK asize 1) (PUT (HDRP bp) (PACK asize 1) s))
      t bp A B hseg2 hprev2 hsep hlow
    have hhdr3 : GET (HDRP bp)
        (removeblock bp (PUT (bp + asize - 8) (PACK asize 1)
          (PUT (HDRP bp) (PACK asize 1) s))) = PACK asize 1 := by
      rw [hframe3 (HDRP bp) (by rw [hHD]; exact hvhdr), hhdr2]
    have hbp2 : NEXT_BLKP bp
        (removeblock bp (PUT (bp + asize - 8) (PACK asize 1)
          (PUT (HDRP bp) (PACK asize 1) s))) = bp + asize := by
      show bp + GET_SIZE (bp - WSIZE) _ = _
      rw [show bp - WSIZE = HDRP bp from rfl,
        GET_SIZE_eq hhdr3 (by omega) (Or.inr rfl)]
    rw [hbp2, show HDRP (bp + asize) = bp + asize - 4 from rfl]
    have hf5 : FTRP (bp + asize)
        (PUT (bp + asize - 4) (PACK (csize - asize) 0)
          (removeblock bp (PUT (bp + asize - 8) (PACK asize 1)
            (PUT (HDRP bp) (PACK asize 1) s)))) = bp + csize - 8 := by
      unfold FTRP
      rw [show HDRP (bp + asize) = bp + asize - 4 from rfl,
        GET_SIZE_eq (GET_PUT_same_small (bp + asize - 4) _ hpc0lt) (by omega) (Or.inl rfl),
        hD]
      omega
    rw [hf5]
    refine ⟨_, rfl, ?_, ?_, ?_, ?_, ?_, ?_⟩
    · rw [GET_PUT_ne (by rw [hHD]; omega), GET_PUT_ne (by rw [hHD]; omega), hhdr3]
    · rw [GET_PUT_ne (by omega), GET_PUT_ne (by omega),
        hframe3 (bp + asize - 8) hvftr, GET_PUT_same_small _ _ hpa1lt]
    · rw [GET_PUT_ne (by omega), GET_PUT_same_small _ _ hpc0lt]
    · rw [GET_PUT_same_small _ _ hpc0lt]
    · simp only [PUT_free_listp]
      rw [segB_congr ?_]
      · exact hseg3
      · intro y hy
        have hy' : y ∈ t :: (A ++ bp :: B) := by
          rcases List.mem_append.mp hy with h | h
          · simp [h]
          · simp [h]
        show GET (y + WSIZE) _ = GET (y + WSIZE) _
        rw [GET_PUT_ne (by have := (hvrf y hy').2; omega),
          GET_PUT_ne (by have := (hvrh y hy').2; omega)]
    · rw [prevB_congr ?_]
      · exact hprev3
      · intro y hy
        have hy' : y ∈ t :: (A ++ bp :: B) := by
          rcases List.mem_append.mp hy with h | h
          · simp [h]
          · simp [h]
        show GET y _ = GET y _
        rw [GET_PUT_ne (by have := (hvrf y hy').1; omega),
          GET_PUT_ne (by have := (hvrh y hy').1; omega)]
  · -- the no-split branch
    intro h16
    have hvhdr := havoid (bp - 4) (Or.inl rfl)
    have hvftr := havoid (bp + csize - 8) (by omega)
    simp only [place]
    rw [if_neg (by rw [hzs, hsub]; omega), hzs]
    have hf1 : FTRP bp (PUT (HDRP bp) (PACK csize 1) s) = bp + csize - 8 := by
      unfold FTRP
      rw [GET_SIZE_eq (GET_PUT_same_small (HDRP bp) s hpcs1lt) (by omega) (Or.inr rfl), hD]
    rw [hf1]
    have hhdr2 : GET (HDRP bp)
        (PUT (bp + csize - 8) (PACK csize 1) (PUT (HDRP bp) (PACK csize 1) s)) =
        PACK csize 1 := by
      rw [GET_PUT_ne (by rw [hHD]; omega), GET_PUT_same_small (HDRP bp) s hpcs1lt]
    have hseg2 : segB
        (PUT (bp + csize - 8) (PACK csize 1) (PUT (HDRP bp) (PACK csize 1) s))
        (PUT (bp + csize - 8) (PACK csize 1) (PUT (HDRP bp) (PACK csize 1) s)).free_listp
        (A ++ bp :: B) t = true := by
      simp only [PUT_free_listp]
      rw [segB_congr ?_]
      · exact hseg
      · intro y hy
        show GET (y + WSIZE) _ = GET (y + WSIZE) s
        rw [GET_PUT_ne (by have := (hvftr y (by simp [hy])).2; omega),
          GET_PUT_ne (by rw [hHD]; have := (hvhdr y (by simp [hy])).2; omega)]
    have hprev2 : prevB
        (PUT (bp + csize - 8) (PACK csize 1) (PUT (HDRP bp) (PACK csize 1) s))
        0 (A ++ bp :: B) = true := by
      rw [prevB_congr ?_]
      · exact hprev
      · intro y hy
        show GET y _ = GET y s
        rw [GET_PUT_ne (by have := (hvftr y (by simp [hy])).1; omega),
          GET_PUT_ne (by rw [hHD]; have := (hvhdr y (by simp [hy])).1; omega)]
    obtain ⟨hseg3, hprev3, hframe3⟩ := removeblock_spec
      (PUT (bp + csize - 8) (PACK csize 1) (PUT (HDRP bp) (PACK csize 1) s))
      t bp A B hseg2 hprev2 hsep hlow
    refine ⟨?_, ?_, hseg3, hprev3⟩
    · rw [hframe3 (HDRP bp) (by rw [hHD]; exact hvhdr), hhdr2]
    · rw [hframe3 (bp + csize - 8) hvftr, GET_PUT_same_small _ _ hpcs1lt]

/-- Witness for C7 at the concrete heap `c7state`: placing 16 bytes in the
free 48-byte block at 32 splits it; the remainder at 48 has size 32 and is
handed to `coalesce`. -/
theorem C7_place_witness :
    (DSIZE + OVERHEAD ≤ 48 - 16) ∧
    (∃ smid, place 32 16 c7state = (coalesce (32 + 16) smid).2 ∧
      GET (HDRP 32) smid = PACK 16 1 ∧
      GET (32 + 16 - 8) smid = PACK 16 1 ∧
      GET (HDRP (32 + 16)) smid = PACK (48 - 16) 0 ∧
      GET (32 + 48 - 8) smid = PACK (48 - 16) 0 ∧
      segB smid smid.free_listp ([] ++ []) 16 = true ∧
      prevB smid 0 ([] ++ []) = true) :=
  ⟨by decide,
    (C7_place c7state 16 32 48 16 [] [] (by decide) (by decide) (by decide) (by decide)
      (by decide) (by decide) (by decide) (by decide) (by decide) (by decide) (by decide)
      (by decide)).1 (by decide)⟩

/-- C6 counterexample: in `c6state` (`init(); A := allocate(40)`), block 32
has size 48; `resize(A, 16)` has adjusted size 24, so the shrink leaves a
remainder `48 - 24 = 24`, at least one minimum block size
(`DSIZE + OVERHEAD = 16`; 24 is itself a legal block size).  The claim
requires a split, but the code returns the block unchanged — still size 48 —
because its split threshold demands a remainder strictly greater than
`3*OVERHEAD = 24` bytes. -/
theorem C6_counterexample :
    mm_malloc 40 9 initState = some (some 32, c6state) ∧
    GET (HDRP 32) c6state = PACK 48 1 ∧
    reallocAdjust 16 = 24 ∧
    DSIZE + OVERHEAD ≤ 48 - 24 ∧
    mm_realloc 32 16 9 c6state = RRes.ret 32 c6state ∧
    (48 : Nat) ≠ 24 := by
  refine ⟨rfl, by decide, by decide, by decide, rfl, by decide⟩


/-! ### Characterisation of `coalesce` (for C3) -/

/-- `coalesce`, case 1: both neighbours are allocated (or the previous-block
computation degenerates to `bp` itself) — the block is inserted at the head
of the free list unchanged and its own address is returned. -/
theorem coalesce_none_free (s : MM) (t bp sb : Nat) (L : List Nat)
    (hhdr : GET (HDRP bp) s = sb)
    (hftr : GET (bp + sb - 8) s = sb)
    (hsb8 : sb % 8 = 0) (hsb16 : 16 ≤ sb)
    (hseg : segB s s.free_listp L t = true)
    (hprev : prevB s 0 L = true)
    (hsep : (t :: bp :: L).Pairwise (fun u v => u + 16 ≤ v ∨ v + 16 ≤ u))
    (hlow : ∀ y ∈ t :: bp :: L, 16 ≤ y ∧ y < MOD32)
    (hext : ∀ y ∈ t :: L, y + 16 ≤ bp ∨ bp + sb ≤ y)
    (hpa : GET_ALLOC (FTRP (PREV_BLKP bp s) s) s ≠ 0 ∨ PREV_BLKP bp s = bp)
    (hna : GET_ALLOC (HDRP (NEXT_BLKP bp s)) s ≠ 0) :
    (coalesce bp s).1 = bp ∧
    (coalesce bp s).2.free_listp = bp ∧
    GET_ALLOC (HDRP bp) (coalesce bp s).2 = 0 ∧
    GET (HDRP bp) (coalesce bp s).2 = PACK sb 0 ∧
    GET (bp + sb - 8) (coalesce bp s).2 = PACK sb 0 ∧
    segB (coalesce bp s).2 bp (bp :: L) t = true ∧
    prevB (coalesce bp s).2 0 (bp :: L) = true := by
  have hbpb := hlow bp (by simp)
  have hPA : (GET_ALLOC (FTRP (PREV_BLKP bp s) s) s != 0 || PREV_BLKP bp s == bp) = true := by
    rcases hpa with h | h
    · simp [h]
    · simp [h]
  have hNA : (GET_ALLOC (HDRP (NEXT_BLKP bp s)) s != 0) = true := by simp [hna]
  have hcond : ((GET_ALLOC (FTRP (PREV_BLKP bp s) s) s != 0 || PREV_BLKP bp s == bp) &&
      (GET_ALLOC (HDRP (NEXT_BLKP bp s)) s != 0)) = true := by
    rw [hPA, hNA]
    rfl
  simp only [coalesce]
  rw [if_pos hcond]
  rw [show HDRP bp = bp - 4 from rfl]
  have hhdr4 : GET (bp - 4) s = sb := hhdr
  obtain ⟨hfl, hsg, hpv, hfr⟩ := addblock_spec s t bp L hseg hprev hsep hlow
  have hvh : ∀ y ∈ t :: bp :: L, bp - 4 ≠ y ∧ bp - 4 ≠ y + 4 := by
    intro y hy
    rcases List.mem_cons.mp hy with rfl | hy2
    · have := hext y (by simp)
      exact ⟨by omega, by omega⟩
    rcases List.mem_cons.mp hy2 with rfl | hy3
    · exact ⟨by omega, by omega⟩
    · have := hext y (by simp [hy3])
      exact ⟨by omega, by omega⟩
  have hvf : ∀ y ∈ t :: bp :: L, bp + sb - 8 ≠ y ∧ bp + sb - 8 ≠ y + 4 := by
    intro y hy
    rcases List.mem_cons.mp hy with rfl | hy2
    · have := hext y (by simp)
      exact ⟨by omega, by omega⟩
    rcases List.mem_cons.mp hy2 with rfl | hy3
    · exact ⟨by omega, by omega⟩
    · have := hext y (by simp [hy3])
      exact ⟨by omega, by omega⟩
  have hgh : GET (bp - 4) (addblock bp s) = PACK sb 0 := by
    rw [hfr (bp - 4) hvh, PACK_alloc0]
    exact hhdr4
  refine ⟨rfl, hfl, GET_ALLOC_eq hgh hsb8 (Or.inl rfl), hgh, ?_, hsg, hpv⟩
  rw [hfr (bp + sb - 8) hvf, PACK_alloc0]
  exact hftr

/-- `coalesce`, case 2: only the successor block (at `bp + sb`, a member of
the free list) is free — it is unlinked, the sizes merge at `bp`, and `bp`
itself is returned and becomes the new head. -/
theorem coalesce_next_free (s : MM) (t bp sb sn : Nat) (A B : List Nat)
    (hhdr : GET (HDRP bp) s = sb)
    (hsb8 : sb % 8 = 0) (hsb16 : 16 ≤ sb)
    (hnhdr : GET (bp + sb - 4) s = sn)
    (hsn8 : sn % 8 = 0) (hsn16 : 16 ≤ sn)
    (hbnd : sb + sn < MOD32)
    (hseg : segB s s.free_listp (A ++ (bp + sb) :: B) t = true)
    (hprev : prevB s 0 (A ++ (bp + sb) :: B) = true)
    (hsep : (t :: bp :: (A ++ (bp + sb) :: B)).Pairwise (fun u v => u + 16 ≤ v ∨ v + 16 ≤ u))
    (hlow : ∀ y ∈ t :: bp :: (A ++ (bp + sb) :: B), 16 ≤ y ∧ y < MOD32)
    (hext : ∀ y ∈ t :: (A ++ (bp + sb) :: B), y = bp + sb ∨ y + 16 ≤ bp ∨ bp + sb + sn ≤ y)
    (hpa : GET_ALLOC (FTRP (PREV_BLKP bp s) s) s ≠ 0 ∨ PREV_BLKP bp s = bp) :
    (coalesce bp s).1 = bp ∧
    (coalesce bp s).2.free_listp = bp ∧
    GET_ALLOC (HDRP bp) (coalesce bp s).2 = 0 ∧
    GET (HDRP bp) (coalesce bp s).2 = PACK (sb + sn) 0 ∧
    GET (bp + sb + sn - 8) (coalesce bp s).2 = PACK (sb + sn) 0 ∧
    segB (coalesce bp s).2 bp (bp :: (A ++ B)) t = true ∧
    prevB (coalesce bp s).2 0 (bp :: (A ++ B)) = true := by
  have hW : WSIZE = 4 := rfl
  have hbpb := hlow bp (by simp)
  have hhdr4 : GET (bp - 4) s = sb := hhdr
  have hzs : GET_SIZE (bp - 4) s = sb := by
    unfold GET_SIZE
    rw [hhdr4]
    omega
  have hzn : GET_SIZE (bp + sb - 4) s = sn := by
    unfold GET_SIZE
    rw [hnhdr]
    omega
  have han : GET_ALLOC (bp + sb - 4) s = 0 := by
    unfold GET_ALLOC
    rw [hnhdr]
    omega
  have hpbnd : PACK (sb + sn) 0 < MOD32 := by
    rw [PACK_alloc0]
    omega
  have hnb : NEXT_BLKP bp s = bp + sb := by
    show bp + GET_SIZE (bp - 4) s = _
    rw [hzs]
  have hPA : (GET_ALLOC (FTRP (PREV_BLKP bp s) s) s != 0 || PREV_BLKP bp s == bp) = true := by
    rcases hpa with h | h
    · simp [h]
    · simp [h]
  have hNA : (GET_ALLOC (HDRP (NEXT_BLKP bp s)) s != 0) = false := by
    rw [hnb, show HDRP (bp + sb) = bp + sb - 4 from rfl]
    simp [han]
  have hc1 : ¬ (((GET_ALLOC (FTRP (PREV_BLKP bp s) s) s != 0 || PREV_BLKP bp s == bp) &&
      (GET_ALLOC (HDRP (NEXT_BLKP bp s)) s != 0)) = true) := by
    rw [hPA, hNA]
    simp
  have hc2 : ((GET_ALLOC (FTRP (PREV_BLKP bp s) s) s != 0 || PREV_BLKP bp s == bp) &&
      !(GET_ALLOC (HDRP (NEXT_BLKP bp s)) s != 0)) = true := by
    rw [hPA, hNA]
    rfl
  -- distinctness and extent facts
  have hpwL : (A ++ (bp + sb) :: B).Pairwise (fun u v => u + 16 ≤ v ∨ v + 16 ≤ u) :=
    (List.pairwise_cons.mp (List.pairwise_cons.mp hsep).2).2
  have hpwL' := hpwL
  rw [List.pairwise_append] at hpwL'
  have hne2 : ∀ y ∈ A ++ B, y ≠ bp + sb := by
    intro y hy
    rcases List.mem_append.mp hy with h | h
    · have := hpwL'.2.2 y h (bp + sb) (by simp)
      intro he
      rw [he] at this
      omega
    · have := (List.pairwise_cons.mp hpwL'.2.1).1 y h
      intro he
      rw [he] at this
      omega
  have hbig : ∀ y ∈ t :: (A ++ B), y + 16 ≤ bp ∨ bp + sb + sn ≤ y := by
    intro y hy
    have hymem : y ∈ t :: (A ++ (bp + sb) :: B) := by
      rcases List.mem_cons.mp hy with rfl | hy2
      · simp
      · rcases List.mem_append.mp hy2 with h | h
        · simp [List.mem_append, h]
        · simp [List.mem_append, h]
    have hyne : y ≠ bp + sb := by
      rcases List.mem_cons.mp hy with rfl | hy2
      · have := (List.pairwise_cons.mp hsep).1 (bp + sb) (by simp [List.mem_append])
        omega
      · exact hne2 y hy2
    rcases hext y hymem with h | h | h
    · exact absurd h hyne
    · exact Or.inl h
    · exact Or.inr h
  have hvv : ∀ addr, (addr = bp - 4 ∨ addr = bp + sb + sn - 8) →
      ∀ y ∈ t :: bp :: (A ++ B), addr ≠ y ∧ addr ≠ y + 4 := by
    intro addr ha y hy
    rcases List.mem_cons.mp hy with rfl | hy2
    · have := hbig y (by simp)
      rcases ha with rfl | rfl <;> exact ⟨by omega, by omega⟩
    rcases List.mem_cons.mp hy2 with rfl | hy3
    · rcases ha with rfl | rfl <;> exact ⟨by omega, by omega⟩
    · have := hbig y (by simp [hy3])
      rcases ha with rfl | rfl <;> exact ⟨by omega, by omega⟩
  -- unlink the successor
  have hsub : List.Sublist (t :: (A ++ (bp + sb) :: B)) (t :: bp :: (A ++ (bp + sb) :: B)) :=
    List.Sublist.cons₂ t (List.sublist_cons_self bp _)
  obtain ⟨hseg1, hprev1, hfr1⟩ := removeblock_spec s t (bp + sb) A B hseg hprev
    (hsep.sublist hsub) (fun y hy => hlow y (hsub.subset hy))
  simp only [coalesce]
  rw [if_neg hc1, if_pos hc2]
  rw [hnb, show HDRP (bp + sb) = bp + sb - 4 from rfl, show HDRP bp = bp - 4 from rfl,
    hzs, hzn]
  have hf2 : FTRP bp (PUT (bp - 4) (PACK (sb + sn) 0) (removeblock (bp + sb) s)) =
      bp + sb + sn - 8 := by
    unfold FTRP
    rw [show HDRP bp = bp - 4 from rfl,
      GET_SIZE_eq (GET_PUT_same_small (bp - 4) _ hpbnd) (by omega) (Or.inl rfl),
      show DSIZE = 8 from rfl]
    omega
  rw [hf2]
  -- re-insert bp in front of the remaining chain
  have hseg3 : segB
      (PUT (bp + sb + sn - 8) (PACK (sb + sn) 0)
        (PUT (bp - 4) (PACK (sb + sn) 0) (removeblock (bp + sb) s)))
      (PUT (bp + sb + sn - 8) (PACK (sb + sn) 0)
        (PUT (bp - 4) (PACK (sb + sn) 0) (removeblock (bp + sb) s))).free_listp
      (A ++ B) t = true := by
    simp only [PUT_free_listp]
    rw [segB_congr ?_]
    · exact hseg1
    · intro y hy
      have h1 := hvv (bp - 4) (Or.inl rfl) y (by simp [hy])
      have h2 := hvv (bp + sb + sn - 8) (Or.inr rfl) y (by simp [hy])
      show GET (y + WSIZE) _ = GET (y + WSIZE) _
      rw [GET_PUT_ne (by have := h2.2; rw [hW]; omega),
        GET_PUT_ne (by have := h1.2; rw [hW]; omega)]
  have hprev3 : prevB
      (PUT (bp + sb + sn - 8) (PACK (sb + sn) 0)
        (PUT (bp - 4) (PACK (sb + sn) 0) (removeblock (bp + sb) s)))
      0 (A ++ B) = true := by
    rw [prevB_congr ?_]
    · exact hprev1
    · intro y hy
      have h1 := hvv (bp - 4) (Or.inl rfl) y (by simp [hy])
      have h2 := hvv (bp + sb + sn - 8) (Or.inr rfl) y (by simp [hy])
      show GET y _ = GET y _
      rw [GET_PUT_ne (by have := h2.1; omega), GET_PUT_ne (by have := h1.1; omega)]
  have hsubAB : List.Sublist (A ++ B) (A ++ (bp + sb) :: B) :=
    List.Sublist.append (List.Sublist.refl A) (List.sublist_cons_self _ B)
  have hsub3 : List.Sublist (t :: bp :: (A ++ B)) (t :: bp :: (A ++ (bp + sb) :: B)) :=
    List.Sublist.cons₂ t (List.Sublist.cons₂ bp hsubAB)
  obtain ⟨hfl4, hsg4, hpv4, hfr4⟩ := addblock_spec
    (PUT (bp + sb + sn - 8) (PACK (sb + sn) 0)
      (PUT (bp - 4) (PACK (sb + sn) 0) (removeblock (bp + sb) s)))
    t bp (A ++ B) hseg3 hprev3 (hsep.sublist hsub3) (fun y hy => hlow y (hsub3.subset hy))
  have hgh4 : GET (bp - 4)
      (addblock bp (PUT (bp + sb + sn - 8) (PACK (sb + sn) 0)
        (PUT (bp - 4) (PACK (sb + sn) 0) (removeblock (bp + sb) s)))) =
      PACK (sb + sn) 0 := by
    rw [hfr4 (bp - 4) (hvv (bp - 4) (Or.inl rfl)), GET_PUT_ne (by omega),
      GET_PUT_same_small _ _ hpbnd]
  refine ⟨rfl, hfl4, GET_ALLOC_eq hgh4 (by omega) (Or.inl rfl), hgh4, ?_, hsg4, hpv4⟩
  rw [hfr4 (bp + sb + sn - 8) (hvv (bp + sb + sn - 8) (Or.inr rfl)),
    GET_PUT_same_small _ _ hpbnd]


set_option maxHeartbeats 1000000 in
/-- `coalesce`, case 3: only the predecessor block (at `bp - sp`, a member
of the free list) is free — it is unlinked, the sizes merge at the
predecessor's address, and that address (not `bp`) is returned and becomes
the new head. -/
theorem coalesce_prev_free (s : MM) (t bp sb sp : Nat) (A B : List Nat)
    (hhdr : GET (HDRP bp) s = sb)
    (hsb8 : sb % 8 = 0) (hsb16 : 16 ≤ sb)
    (hpftr : GET (bp - 8) s = sp)
    (hphdr : GET (bp - sp - 4) s = sp)
    (hsp8 : sp % 8 = 0) (hsp16 : 16 ≤ sp)
    (hbnd : sb + sp < MOD32)
    (hseg : segB s s.free_listp (A ++ (bp - sp) :: B) t = true)
    (hprev : prevB s 0 (A ++ (bp - sp) :: B) = true)
    (hsep : (t :: bp :: (A ++ (bp - sp) :: B)).Pairwise (fun u v => u + 16 ≤ v ∨ v + 16 ≤ u))
    (hlow : ∀ y ∈ t :: bp :: (A ++ (bp - sp) :: B), 16 ≤ y ∧ y < MOD32)
    (hext : ∀ y ∈ t :: (A ++ (bp - sp) :: B), y = bp - sp ∨ y + 16 ≤ bp - sp ∨ bp + sb ≤ y)
    (hna : GET_ALLOC (HDRP (NEXT_BLKP bp s)) s ≠ 0) :
    (coalesce bp s).1 = bp - sp ∧
    (coalesce bp s).2.free_listp = bp - sp ∧
    GET_ALLOC (HDRP (bp - sp)) (coalesce bp s).2 = 0 ∧
    GET (HDRP (bp - sp)) (coalesce bp s).2 = PACK (sb + sp) 0 ∧
    GET (bp + sb - 8) (coalesce bp s).2 = PACK (sb + sp) 0 ∧
    segB (coalesce bp s).2 (bp - sp) ((bp - sp) :: (A ++ B)) t = true ∧
    prevB (coalesce bp s).2 0 ((bp - sp) :: (A ++ B)) = true := by
  have hW : WSIZE = 4 := rfl
  have hbpb := hlow bp (by simp)
  have h16p : 16 ≤ bp - sp := (hlow (bp - sp) (by simp [List.mem_append])).1
  have hhdr4 : GET (bp - 4) s = sb := hhdr
  have hzs : GET_SIZE (bp - 4) s = sb := by
    unfold GET_SIZE
    rw [hhdr4]
    omega
  have hzp : GET_SIZE (bp - 8) s = sp := by
    unfold GET_SIZE
    rw [hpftr]
    omega
  have hzph : GET_SIZE (bp - sp - 4) s = sp := by
    unfold GET_SIZE
    rw [hphdr]
    omega
  have hap : GET_ALLOC (bp - 8) s = 0 := by
    unfold GET_ALLOC
    rw [hpftr]
    omega
  have hpbnd : PACK (sb + sp) 0 < MOD32 := by
    rw [PACK_alloc0]
    omega
  have hpb : PREV_BLKP bp s = bp - sp := by
    show sub32 bp (GET_SIZE (bp - 8) s) = _
    rw [hzp]
    exact sub32_eq_sub (by omega) hbpb.2
  have hfp : FTRP (bp - sp) s = bp - 8 := by
    unfold FTRP
    rw [show HDRP (bp - sp) = bp - sp - 4 from rfl, hzph, show DSIZE = 8 from rfl]
    omega
  have hPA : (GET_ALLOC (FTRP (PREV_BLKP bp s) s) s != 0 || PREV_BLKP bp s == bp) = false := by
    rw [hpb, hfp]
    have hnebp : bp - sp ≠ bp := by omega
    simp [hap, hnebp]
  have hNA : (GET_ALLOC (HDRP (NEXT_BLKP bp s)) s != 0) = true := by simp [hna]
  have hc1 : ¬ (((GET_ALLOC (FTRP (PREV_BLKP bp s) s) s != 0 || PREV_BLKP bp s == bp) &&
      (GET_ALLOC (HDRP (NEXT_BLKP bp s)) s != 0)) = true) := by
    rw [hPA]
    simp
  have hc2 : ¬ (((GET_ALLOC (FTRP (PREV_BLKP bp s) s) s != 0 || PREV_BLKP bp s == bp) &&
      !(GET_ALLOC (HDRP (NEXT_BLKP bp s)) s != 0)) = true) := by
    rw [hPA]
    simp
  have hc3 : ((!(GET_ALLOC (FTRP (PREV_BLKP bp s) s) s != 0 || PREV_BLKP bp s == bp)) &&
      (GET_ALLOC (HDRP (NEXT_BLKP bp s)) s != 0)) = true := by
    rw [hPA, hNA]
    rfl
  -- distinctness and extent facts
  have hpwL : (A ++ (bp - sp) :: B).Pairwise (fun u v => u + 16 ≤ v ∨ v + 16 ≤ u) :=
    (List.pairwise_cons.mp (List.pairwise_cons.mp hsep).2).2
  have hpwL' := hpwL
  rw [List.pairwise_append] at hpwL'
  have hne2 : ∀ y ∈ A ++ B, y ≠ bp - sp := by
    intro y hy
    rcases List.mem_append.mp hy with h | h
    · have := hpwL'.2.2 y h (bp - sp) (by simp)
      intro he
      rw [he] at this
      omega
    · have := (List.pairwise_cons.mp hpwL'.2.1).1 y h
      intro he
      rw [he] at this
      omega
  have hbig : ∀ y ∈ t :: (A ++ B), y + 16 ≤ bp - sp ∨ bp + sb ≤ y := by
    intro y hy
    have hymem : y ∈ t :: (A ++ (bp - sp) :: B) := by
      rcases List.mem_cons.mp hy with rfl | hy2
      · simp
      · rcases List.mem_append.mp hy2 with h | h
        · simp [List.mem_append, h]
        · simp [List.mem_append, h]
    have hyne : y ≠ bp - sp := by
      rcases List.mem_cons.mp hy with rfl | hy2
      · have := (List.pairwise_cons.mp hsep).1 (bp - sp) (by simp [List.mem_append])
        omega
      · exact hne2 y hy2
    rcases hext y hymem with h | h | h
    · exact absurd h hyne
    · exact Or.inl h
    · exact Or.inr h
  have hvo : ∀ addr, (addr = bp - 4 ∨ addr = bp - 8) →
      ∀ y ∈ t :: (A ++ (bp - sp) :: B), addr ≠ y ∧ addr ≠ y + 4 := by
    intro addr ha y hy
    rcases hext y hy with rfl | h | h
    · rcases ha with rfl | rfl <;> exact ⟨by omega, by omega⟩
    · rcases ha with rfl | rfl <;> exact ⟨by omega, by omega⟩
    · rcases ha with rfl | rfl <;> exact ⟨by omega, by omega⟩
  have hvv : ∀ addr, (addr = bp - sp - 4 ∨ addr = bp + sb - 8) →
      ∀ y ∈ t :: (bp - sp) :: (A ++ B), addr ≠ y ∧ addr ≠ y + 4 := by
    intro addr ha y hy
    rcases List.mem_cons.mp hy with rfl | hy2
    · have := hbig y (by simp)
      rcases ha with rfl | rfl <;> exact ⟨by omega, by omega⟩
    rcases List.mem_cons.mp hy2 with rfl | hy3
    · rcases ha with rfl | rfl <;> exact ⟨by omega, by omega⟩
    · have := hbig y (by simp [hy3])
      rcases ha with rfl | rfl <;> exact ⟨by omega, by omega⟩
  -- unlink the predecessor
  have hsub : List.Sublist (t :: (A ++ (bp - sp) :: B)) (t :: bp :: (A ++ (bp - sp) :: B)) :=
    List.Sublist.cons₂ t (List.sublist_cons_self bp _)
  obtain ⟨hseg1, hprev1, hfr1⟩ := removeblock_spec s t (bp - sp) A B hseg hprev
    (hsep.sublist hsub) (fun y hy => hlow y (hsub.subset hy))
  have hw8 : GET (bp - 8) (removeblock (bp - sp) s) = sp := by
    rw [hfr1 (bp - 8) (hvo (bp - 8) (Or.inr rfl))]
    exact hpftr
  have hp1 : PREV_BLKP bp (removeblock (bp - sp) s) = bp - sp := by
    show sub32 bp (GET_SIZE (bp - 8) _) = _
    have hgs : GET_SIZE (bp - 8) (removeblock (bp - sp) s) = sp := by
      unfold GET_SIZE
      rw [hw8]
      omega
    rw [hgs]
    exact sub32_eq_sub (by omega) hbpb.2
  simp only [coalesce]
  rw [if_neg hc1, if_neg hc2, if_pos hc3]
  rw [hpb, show HDRP (bp - sp) = bp - sp - 4 from rfl, show HDRP bp = bp - 4 from rfl,
    hzs, hzph]
  rw [hp1, show HDRP (bp - sp) = bp - sp - 4 from rfl]
  have hw8b : GET (bp - 8)
      (PUT (bp - sp - 4) (PACK (sb + sp) 0) (removeblock (bp - sp) s)) = sp := by
    rw [GET_PUT_ne (by omega)]
    exact hw8
  have hp2 : PREV_BLKP bp
      (PUT (bp - sp - 4) (PACK (sb + sp) 0) (removeblock (bp - sp) s)) = bp - sp := by
    show sub32 bp (GET_SIZE (bp - 8) _) = _
    have hgs : GET_SIZE (bp - 8)
        (PUT (bp - sp - 4) (PACK (sb + sp) 0) (removeblock (bp - sp) s)) = sp := by
      unfold GET_SIZE
      rw [hw8b]
      omega
    rw [hgs]
    exact sub32_eq_sub (by omega) hbpb.2
  rw [hp2]
  have hf3 : FTRP (bp - sp)
      (PUT (bp - sp - 4) (PACK (sb + sp) 0) (removeblock (bp - sp) s)) = bp + sb - 8 := by
    unfold FTRP
    rw [show HDRP (bp - sp) = bp - sp - 4 from rfl,
      GET_SIZE_eq (GET_PUT_same_small (bp - sp - 4) _ hpbnd) (by omega) (Or.inl rfl),
      show DSIZE = 8 from rfl]
    omega
  rw [hf3]
  have hw8c : GET (bp - 8)
      (PUT (bp + sb - 8) (PACK (sb + sp) 0)
        (PUT (bp - sp - 4) (PACK (sb + sp) 0) (removeblock (bp - sp) s))) = sp := by
    rw [GET_PUT_ne (by omega)]
    exact hw8b
  have hp3 : PREV_BLKP bp
      (PUT (bp + sb - 8) (PACK (sb + sp) 0)
        (PUT (bp - sp - 4) (PACK (sb + sp) 0) (removeblock (bp - sp) s))) = bp - sp := by
    show sub32 bp (GET_SIZE (bp - 8) _) = _
    have hgs : GET_SIZE (bp - 8)
        (PUT (bp + sb - 8) (PACK (sb + sp) 0)
          (PUT (bp - sp - 4) (PACK (sb + sp) 0) (removeblock (bp - sp) s))) = sp := by
      unfold GET_SIZE
      rw [hw8c]
      omega
    rw [hgs]
    exact sub32_eq_sub (by omega) hbpb.2
  rw [hp3]
  -- re-insert the merged block in front of the remaining chain
  have hseg3 : segB
      (PUT (bp + sb - 8) (PACK (sb + sp) 0)
        (PUT (bp - sp - 4) (PACK (sb + sp) 0) (removeblock (bp - sp) s)))
      (PUT (bp + sb - 8) (PACK (sb + sp) 0)
        (PUT (bp - sp - 4) (PACK (sb + sp) 0) (removeblock (bp - sp) s))).free_listp
      (A ++ B) t = true := by
    simp only [PUT_free_listp]
    rw [segB_congr ?_]
    · exact hseg1
    · intro y hy
      have h1 := hvv (bp - sp - 4) (Or.inl rfl) y (by simp [hy])
      have h2 := hvv (bp + sb - 8) (Or.inr rfl) y (by simp [hy])
      show GET (y + WSIZE) _ = GET (y + WSIZE) _
      rw [GET_PUT_ne (by have := h2.2; rw [hW]; omega),
        GET_PUT_ne (by have := h1.2; rw [hW]; omega)]
  have hprev3 : prevB
      (PUT (bp + sb - 8) (PACK (sb + sp) 0)
        (PUT (bp - sp - 4) (PACK (sb + sp) 0) (removeblock (bp - sp) s)))
      0 (A ++ B) = true := by
    rw [prevB_congr ?_]
    · exact hprev1
    · intro y hy
      have h1 := hvv (bp - sp - 4) (Or.inl rfl) y (by simp [hy])
      have h2 := hvv (bp + sb - 8) (Or.inr rfl) y (by simp [hy])
      show GET y _ = GET y _
      rw [GET_PUT_ne (by have := h2.1; omega), GET_PUT_ne (by have := h1.1; omega)]
  have hsepd := hsep.sublist (List.Sublist.cons₂ t (List.sublist_cons_self bp _))
  have hperm : List.Perm (t :: (A ++ (bp - sp) :: B)) (t :: ((bp - sp) :: (A ++ B))) :=
    List.Perm.cons t List.perm_middle
  have hsep3 := (hperm.pairwise_iff (fun hr => hr.symm)).mp hsepd
  have hlow3 : ∀ y ∈ t :: (bp - sp) :: (A ++ B), 16 ≤ y ∧ y < MOD32 := by
    intro y hy
    refine hlow y ?_
    rcases List.mem_cons.mp hy with rfl | hy2
    · simp
    · have : y ∈ A ++ (bp - sp) :: B := List.perm_middle.mem_iff.mpr hy2
      simp [List.mem_append, List.mem_cons] at this ⊢
      tauto
  obtain ⟨hfl4, hsg4, hpv4, hfr4⟩ := addblock_spec
    (PUT (bp + sb - 8) (PACK (sb + sp) 0)
      (PUT (bp - sp - 4) (PACK (sb + sp) 0) (removeblock (bp - sp) s)))
    t (bp - sp) (A ++ B) hseg3 hprev3 hsep3 hlow3
  have hgh4 : GET (bp - sp - 4)
      (addblock (bp - sp) (PUT (bp + sb - 8) (PACK (sb + sp) 0)
        (PUT (bp - sp - 4) (PACK (sb + sp) 0) (removeblock (bp - sp) s)))) =
      PACK (sb + sp) 0 := by
    rw [hfr4 (bp - sp - 4) (hvv (bp - sp - 4) (Or.inl rfl)), GET_PUT_ne (by omega),
      GET_PUT_same_small _ _ hpbnd]
  refine ⟨rfl, hfl4, GET_ALLOC_eq hgh4 (by omega) (Or.inl rfl), hgh4, ?_, hsg4, hpv4⟩
  rw [hfr4 (bp + sb - 8) (hvv (bp + sb - 8) (Or.inr rfl)), GET_PUT_same_small _ _ hpbnd]


set_option maxHeartbeats 1600000 in
/-- `coalesce`, case 4: both neighbours are free — both are unlinked (the
predecessor first, matching the code), the three sizes merge at the
predecessor's address, and that address is returned and becomes the new
head.  The two possible relative orders of predecessor and successor inside
the free list are abstracted by the decomposition hypotheses `hAB`/`hperm2`. -/
theorem coalesce_both_free (s : MM) (t bp sb sp sn : Nat) (A1 B1 A2 B2 : List Nat)
    (hAB : A1 ++ B1 = A2 ++ (bp + sb) :: B2)
    (hhdr : GET (HDRP bp) s = sb)
    (hsb8 : sb % 8 = 0) (hsb16 : 16 ≤ sb)
    (hpftr : GET (bp - 8) s = sp)
    (hphdr : GET (bp - sp - 4) s = sp)
    (hsp8 : sp % 8 = 0) (hsp16 : 16 ≤ sp)
    (hnhdr : GET (bp + sb - 4) s = sn)
    (hsn8 : sn % 8 = 0) (hsn16 : 16 ≤ sn)
    (hbnd : sb + sp + sn < MOD32)
    (hseg : segB s s.free_listp (A1 ++ (bp - sp) :: B1) t = true)
    (hprev : prevB s 0 (A1 ++ (bp - sp) :: B1) = true)
    (hsep : (t :: bp :: (A1 ++ (bp - sp) :: B1)).Pairwise
      (fun u v => u + 16 ≤ v ∨ v + 16 ≤ u))
    (hlow : ∀ y ∈ t :: bp :: (A1 ++ (bp - sp) :: B1), 16 ≤ y ∧ y < MOD32)
    (hext : ∀ y ∈ t :: (A1 ++ (bp - sp) :: B1),
      y = bp - sp ∨ y = bp + sb ∨ y + 16 ≤ bp - sp ∨ bp + sb + sn ≤ y)
    (hperm2 : List.Perm (A1 ++ (bp - sp) :: B1) ((bp - sp) :: (bp + sb) :: (A2 ++ B2))) :
    (coalesce bp s).1 = bp - sp ∧
    (coalesce bp s).2.free_listp = bp - sp ∧
    GET_ALLOC (HDRP (bp - sp)) (coalesce bp s).2 = 0 ∧
    GET (HDRP (bp - sp)) (coalesce bp s).2 = PACK (sb + sp + sn) 0 ∧
    GET (bp + sb + sn - 8) (coalesce bp s).2 = PACK (sb + sp + sn) 0 ∧
    segB (coalesce bp s).2 (bp - sp) ((bp - sp) :: (A2 ++ B2)) t = true ∧
    prevB (coalesce bp s).2 0 ((bp - sp) :: (A2 ++ B2)) = true := by
  have hW : WSIZE = 4 := rfl
  have hbpb := hlow bp (by simp)
  have h16p : 16 ≤ bp - sp := (hlow (bp - sp) (by simp [List.mem_append])).1
  have hhdr4 : GET (bp - 4) s = sb := hhdr
  have hzs : GET_SIZE (bp - 4) s = sb := by
    unfold GET_SIZE
    rw [hhdr4]
    omega
  have hzp : GET_SIZE (bp - 8) s = sp := by
    unfold GET_SIZE
    rw [hpftr]
    omega
  have hzph : GET_SIZE (bp - sp - 4) s = sp := by
    unfold GET_SIZE
    rw [hphdr]
    omega
  have hzn : GET_SIZE (bp + sb - 4) s = sn := by
    unfold GET_SIZE
    rw [hnhdr]
    omega
  have hap : GET_ALLOC (bp - 8) s = 0 := by
    unfold GET_ALLOC
    rw [hpftr]
    omega
  have han : GET_ALLOC (bp + sb - 4) s = 0 := by
    unfold GET_ALLOC
    rw [hnhdr]
    omega
  have hpbnd : PACK (sb + sp + sn) 0 < MOD32 := by
    rw [PACK_alloc0]
    omega
  have hpb : PREV_BLKP bp s = bp - sp := by
    show sub32 bp (GET_SIZE (bp - 8) s) = _
    rw [hzp]
    exact sub32_eq_sub (by omega) hbpb.2
  have hnb : NEXT_BLKP bp s = bp + sb := by
    show bp + GET_SIZE (bp - 4) s = _
    rw [hzs]
  have hfp : FTRP (bp - sp) s = bp - 8 := by
    unfold FTRP
    rw [show HDRP (bp - sp) = bp - sp - 4 from rfl, hzph, show DSIZE = 8 from rfl]
    omega
  have hPA : (GET_ALLOC (FTRP (PREV_BLKP bp s) s) s != 0 || PREV_BLKP bp s == bp) = false := by
    rw [hpb, hfp]
    have hnebp : bp - sp ≠ bp := by omega
    simp [hap, hnebp]
  have hNA : (GET_ALLOC (HDRP (NEXT_BLKP bp s)) s != 0) = false := by
    rw [hnb, show HDRP (bp + sb) = bp + sb - 4 from rfl]
    simp [han]
  have hc1 : ¬ (((GET_ALLOC (FTRP (PREV_BLKP bp s) s) s != 0 || PREV_BLKP bp s == bp) &&
      (GET_ALLOC (HDRP (NEXT_BLKP bp s)) s != 0)) = true) := by
    rw [hPA]
    simp
  have hc2 : ¬ (((GET_ALLOC (FTRP (PREV_BLKP bp s) s) s != 0 || PREV_BLKP bp s == bp) &&
      !(GET_ALLOC (HDRP (NEXT_BLKP bp s)) s != 0)) = true) := by
    rw [hPA]
    simp
  have hc3 : ¬ (((!(GET_ALLOC (FTRP (PREV_BLKP bp s) s) s != 0 || PREV_BLKP bp s == bp)) &&
      (GET_ALLOC (HDRP (NEXT_BLKP bp s)) s != 0)) = true) := by
    rw [hNA]
    simp
  -- address avoidance from the extent hypothesis
  have hvo : ∀ addr, (addr = bp - sp - 4 ∨
        (bp - sp + 8 ≤ addr ∧ addr + 4 ≤ bp + sb) ∨
        (bp + sb + 8 ≤ addr ∧ addr + 8 ≤ bp + sb + sn)) →
      ∀ y ∈ t :: (A1 ++ (bp - sp) :: B1), addr ≠ y ∧ addr ≠ y + 4 := by
    intro addr ha y hy
    rcases hext y hy with rfl | rfl | h | h <;>
      rcases ha with h2 | h2 | h2 <;> exact ⟨by omega, by omega⟩
  -- membership mappings
  have hlift : ∀ y ∈ t :: (A1 ++ (bp - sp) :: B1), y ∈ t :: bp :: (A1 ++ (bp - sp) :: B1) := by
    intro y hy
    rcases List.mem_cons.mp hy with rfl | h
    · simp
    · simp [h]
  have hmem1 : ∀ y ∈ t :: (A2 ++ (bp + sb) :: B2), y ∈ t :: (A1 ++ (bp - sp) :: B1) := by
    intro y hy
    rcases List.mem_cons.mp hy with rfl | hy2
    · simp
    · have hy3 : y ∈ A1 ++ B1 := by
        rw [hAB]
        exact hy2
      rcases List.mem_append.mp hy3 with h | h
      · simp [List.mem_append, h]
      · simp [List.mem_append, h]
  have hmem2 : ∀ y ∈ t :: (bp - sp) :: (A2 ++ B2), y ∈ t :: (A1 ++ (bp - sp) :: B1) := by
    intro y hy
    rcases List.mem_cons.mp hy with rfl | hy2
    · simp
    · have hy3 : y ∈ (bp - sp) :: (bp + sb) :: (A2 ++ B2) := by
        rcases List.mem_cons.mp hy2 with rfl | hy4
        · simp
        · simp [hy4]
      have hy5 : y ∈ A1 ++ (bp - sp) :: B1 := hperm2.mem_iff.mpr hy3
      simp [hy5]
  -- unlink the predecessor
  have hsub1 : List.Sublist (t :: (A1 ++ (bp - sp) :: B1))
      (t :: bp :: (A1 ++ (bp - sp) :: B1)) :=
    List.Sublist.cons₂ t (List.sublist_cons_self bp _)
  obtain ⟨hseg1, hprev1, hfr1⟩ := removeblock_spec s t (bp - sp) A1 B1 hseg hprev
    (hsep.sublist hsub1) (fun y hy => hlow y (hsub1.subset hy))
  rw [hAB] at hseg1 hprev1
  have hw4a : GET (bp - 4) (removeblock (bp - sp) s) = sb := by
    rw [hfr1 (bp - 4) (hvo (bp - 4) (by omega))]
    exact hhdr4
  have hw8a : GET (bp - 8) (removeblock (bp - sp) s) = sp := by
    rw [hfr1 (bp - 8) (hvo (bp - 8) (by omega))]
    exact hpftr
  have hwna : GET (bp + sb - 4) (removeblock (bp - sp) s) = sn := by
    rw [hfr1 (bp + sb - 4) (hvo (bp + sb - 4) (by omega))]
    exact hnhdr
  have hnb1 : NEXT_BLKP bp (removeblock (bp - sp) s) = bp + sb := by
    show bp + GET_SIZE (bp - 4) _ = _
    have hgs : GET_SIZE (bp - 4) (removeblock (bp - sp) s) = sb := by
      unfold GET_SIZE
      rw [hw4a]
      omega
    rw [hgs]
  -- unlink the successor
  have hsubAB1 : List.Sublist (A1 ++ B1) (A1 ++ (bp - sp) :: B1) :=
    List.Sublist.append (List.Sublist.refl A1) (List.sublist_cons_self _ B1)
  have hsep2 : (t :: (A1 ++ B1)).Pairwise (fun u v => u + 16 ≤ v ∨ v + 16 ≤ u) :=
    hsep.sublist (List.Sublist.cons₂ t (hsubAB1.trans (List.sublist_cons_self bp _)))
  rw [hAB] at hsep2
  obtain ⟨hseg2, hprev2, hfr2⟩ := removeblock_spec (removeblock (bp - sp) s) t (bp + sb)
    A2 B2 hseg1 hprev1 hsep2 (fun y hy => hlow y (hlift y (hmem1 y hy)))
  have hvo2 : ∀ addr, (addr = bp - sp - 4 ∨
        (bp - sp + 8 ≤ addr ∧ addr + 4 ≤ bp + sb) ∨
        (bp + sb + 8 ≤ addr ∧ addr + 8 ≤ bp + sb + sn)) →
      ∀ y ∈ t :: (A2 ++ (bp + sb) :: B2), addr ≠ y ∧ addr ≠ y + 4 :=
    fun addr ha y hy => hvo addr ha y (hmem1 y hy)
  have hw8b : GET (bp - 8) (removeblock (bp + sb) (removeblock (bp - sp) s)) = sp := by
    rw [hfr2 (bp - 8) (hvo2 (bp - 8) (by omega))]
    exact hw8a
  have hp2 : PREV_BLKP bp (removeblock (bp + sb) (removeblock (bp - sp) s)) = bp - sp := by
    show sub32 bp (GET_SIZE (bp - 8) _) = _
    have hgs : GET_SIZE (bp - 8) (removeblock (bp + sb) (removeblock (bp - sp) s)) = sp := by
      unfold GET_SIZE
      rw [hw8b]
      omega
    rw [hgs]
    exact sub32_eq_sub (by omega) hbpb.2
  simp only [coalesce]
  rw [if_neg hc1, if_neg hc2, if_neg hc3]
  rw [hpb, hnb, show HDRP (bp - sp) = bp - sp - 4 from rfl,
    show HDRP (bp + sb) = bp + sb - 4 from rfl, show HDRP bp = bp - 4 from rfl,
    hzs, hzph, hzn, hnb1, hp2, show HDRP (bp - sp) = bp - sp - 4 from rfl]
  have hw8c : GET (bp - 8)
      (PUT (bp - sp - 4) (PACK (sb + sp + sn) 0)
        (removeblock (bp + sb) (removeblock (bp - sp) s))) = sp := by
    rw [GET_PUT_ne (by omega)]
    exact hw8b
  have hp3 : PREV_BLKP bp
      (PUT (bp - sp - 4) (PACK (sb + sp + sn) 0)
        (removeblock (bp + sb) (removeblock (bp - sp) s))) = bp - sp := by
    show sub32 bp (GET_SIZE (bp - 8) _) = _
    have hgs : GET_SIZE (bp - 8)
        (PUT (bp - sp - 4) (PACK (sb + sp + sn) 0)
          (removeblock (bp + sb) (removeblock (bp - sp) s))) = sp := by
      unfold GET_SIZE
      rw [hw8c]
      omega
    rw [hgs]
    exact sub32_eq_sub (by omega) hbpb.2
  rw [hp3]
  have hf4 : FTRP (bp - sp)
      (PUT (bp - sp - 4) (PACK (sb + sp + sn) 0)
        (removeblock (bp + sb) (removeblock (bp - sp) s))) = bp + sb + sn - 8 := by
    unfold FTRP
    rw [show HDRP (bp - sp) = bp - sp - 4 from rfl,
      GET_SIZE_eq (GET_PUT_same_small (bp - sp - 4) _ hpbnd) (by omega) (Or.inl rfl),
      show DSIZE = 8 from rfl]
    omega
  rw [hf4]
  have hw8d : GET (bp - 8)
      (PUT (bp + sb + sn - 8) (PACK (sb + sp + sn) 0)
        (PUT (bp - sp - 4) (PACK (sb + sp + sn) 0)
          (removeblock (bp + sb) (removeblock (bp - sp) s)))) = sp := by
    rw [GET_PUT_ne (by omega)]
    exact hw8c
  have hp4 : PREV_BLKP bp
      (PUT (bp + sb + sn - 8) (PACK (sb + sp + sn) 0)
        (PUT (bp - sp - 4) (PACK (sb + sp + sn) 0)
          (removeblock (bp + sb) (removeblock (bp - sp) s)))) = bp - sp := by
    show sub32 bp (GET_SIZE (bp - 8) _) = _
    have hgs : GET_SIZE (bp - 8)
        (PUT (bp + sb + sn - 8) (PACK (sb + sp + sn) 0)
          (PUT (bp - sp - 4) (PACK (sb + sp + sn) 0)
            (removeblock (bp + sb) (removeblock (bp - sp) s)))) = sp := by
      unfold GET_SIZE
      rw [hw8d]
      omega
    rw [hgs]
    exact sub32_eq_sub (by omega) hbpb.2
  rw [hp4]
  -- re-insert the merged block in front of the remaining chain
  have hseg3 : segB
      (PUT (bp + sb + sn - 8) (PACK (sb + sp + sn) 0)
        (PUT (bp - sp - 4) (PACK (sb + sp + sn) 0)
          (removeblock (bp + sb) (removeblock (bp - sp) s))))
      (PUT (bp + sb + sn - 8) (PACK (sb + sp + sn) 0)
        (PUT (bp - sp - 4) (PACK (sb + sp + sn) 0)
          (removeblock (bp + sb) (removeblock (bp - sp) s)))).free_listp
      (A2 ++ B2) t = true := by
    simp only [PUT_free_listp]
    rw [segB_congr ?_]
    · exact hseg2
    · intro y hy
      have hmy : y ∈ t :: (A2 ++ (bp + sb) :: B2) := by
        rcases List.mem_append.mp hy with h | h
        · simp [List.mem_append, h]
        · simp [List.mem_append, h]
      have h1 := hvo2 (bp - sp - 4) (by omega) y hmy
      have h2 := hvo2 (bp + sb + sn - 8) (by omega) y hmy
      show GET (y + WSIZE) _ = GET (y + WSIZE) _
      rw [GET_PUT_ne (by have := h2.2; rw [hW]; omega),
        GET_PUT_ne (by have := h1.2; rw [hW]; omega)]
  have hprev3 : prevB
      (PUT (bp + sb + sn - 8) (PACK (sb + sp + sn) 0)
        (PUT (bp - sp - 4) (PACK (sb + sp + sn) 0)
          (removeblock (bp + sb) (removeblock (bp - sp) s))))
      0 (A2 ++ B2) = true := by
    rw [prevB_congr ?_]
    · exact hprev2
    · intro y hy
      have hmy : y ∈ t :: (A2 ++ (bp + sb) :: B2) := by
        rcases List.mem_append.mp hy with h | h
        · simp [List.mem_append, h]
        · simp [List.mem_append, h]
      have h1 := hvo2 (bp - sp - 4) (by omega) y hmy
      have h2 := hvo2 (bp + sb + sn - 8) (by omega) y hmy
      show GET y _ = GET y _
      rw [GET_PUT_ne (by have := h2.1; omega), GET_PUT_ne (by have := h1.1; omega)]
  have hsept : (t :: (A1 ++ (bp - sp) :: B1)).Pairwise
      (fun u v => u + 16 ≤ v ∨ v + 16 ≤ u) := hsep.sublist hsub1
  have hpermt : List.Perm (t :: (A1 ++ (bp - sp) :: B1))
      (t :: (bp - sp) :: (bp + sb) :: (A2 ++ B2)) := List.Perm.cons t hperm2
  have hsepP := (hpermt.pairwise_iff (fun hr => hr.symm)).mp hsept
  have hsep4 : (t :: (bp - sp) :: (A2 ++ B2)).Pairwise
      (fun u v => u + 16 ≤ v ∨ v + 16 ≤ u) :=
    hsepP.sublist (List.Sublist.cons₂ t
      (List.Sublist.cons₂ (bp - sp) (List.sublist_cons_self (bp + sb) _)))
  obtain ⟨hfl4, hsg4, hpv4, hfr4⟩ := addblock_spec
    (PUT (bp + sb + sn - 8) (PACK (sb + sp + sn) 0)
      (PUT (bp - sp - 4) (PACK (sb + sp + sn) 0)
        (removeblock (bp + sb) (removeblock (bp - sp) s))))
    t (bp - sp) (A2 ++ B2) hseg3 hprev3 hsep4
    (fun y hy => hlow y (hlift y (hmem2 y hy)))
  have hvv : ∀ addr, (addr = bp - sp - 4 ∨
        (bp - sp + 8 ≤ addr ∧ addr + 4 ≤ bp + sb) ∨
        (bp + sb + 8 ≤ addr ∧ addr + 8 ≤ bp + sb + sn)) →
      ∀ y ∈ t :: (bp - sp) :: (A2 ++ B2), addr ≠ y ∧ addr ≠ y + 4 :=
    fun addr ha y hy => hvo addr ha y (hmem2 y hy)
  have hgh4 : GET (bp - sp - 4)
      (addblock (bp - sp)
        (PUT (bp + sb + sn - 8) (PACK (sb + sp + sn) 0)
          (PUT (bp - sp - 4) (PACK (sb + sp + sn) 0)
            (removeblock (bp + sb) (removeblock (bp - sp) s))))) =
      PACK (sb + sp + sn) 0 := by
    rw [hfr4 (bp - sp - 4) (hvv (bp - sp - 4) (by omega)), GET_PUT_ne (by omega),
      GET_PUT_same_small _ _ hpbnd]
  refine ⟨rfl, hfl4, GET_ALLOC_eq hgh4 (by omega) (Or.inl rfl), hgh4, ?_, hsg4, hpv4⟩
  rw [hfr4 (bp + sb + sn - 8) (hvv (bp + sb + sn - 8) (by omega)),
    GET_PUT_same_small _ _ hpbnd]


/-- C3: full case analysis of `coalesce` on a newly freed block `bp` of
block size `sb` (its header and footer already carry `PACK sb 0`), run
against a well-formed free list `L` with terminal `t`.  If neither
neighbour is free, `bp` is inserted into the free list and `bp` itself is
returned; if only the successor (at `bp + sb`, a list member) is free, it
is removed from the list and the sizes merge at `bp`; if only the
predecessor (at `bp - sp`, a list member) is free, it is removed and the
sizes merge at the predecessor's address, which is returned instead of
`bp`; if both are free, both are removed and all three sizes merge at the
predecessor's address.  In every case the returned block is free (allocated
bit 0), carries the merged size in both header and footer, and sits at the
head of the resulting free list. -/
theorem C3_coalesce (s : MM) (t bp sb : Nat) (L : List Nat)
    (hhdr : GET (HDRP bp) s = sb)
    (hftr : GET (bp + sb - 8) s = sb)
    (hsb8 : sb % 8 = 0) (hsb16 : 16 ≤ sb)
    (hseg : segB s s.free_listp L t = true)
    (hprev : prevB s 0 L = true)
    (hsep : (t :: bp :: L).Pairwise (fun u v => u + 16 ≤ v ∨ v + 16 ≤ u))
    (hlow : ∀ y ∈ t :: bp :: L, 16 ≤ y ∧ y < MOD32) :
    ((∀ y ∈ t :: L, y + 16 ≤ bp ∨ bp + sb ≤ y) →
     (GET_ALLOC (FTRP (PREV_BLKP bp s) s) s ≠ 0 ∨ PREV_BLKP bp s = bp) →
     GET_ALLOC (HDRP (NEXT_BLKP bp s)) s ≠ 0 →
     (coalesce bp s).1 = bp ∧ (coalesce bp s).2.free_listp = bp ∧
     GET_ALLOC (HDRP bp) (coalesce bp s).2 = 0 ∧
     GET (HDRP bp) (coalesce bp s).2 = PACK sb 0 ∧
     GET (bp + sb - 8) (coalesce bp s).2 = PACK sb 0 ∧
     segB (coalesce bp s).2 bp (bp :: L) t = true ∧
     prevB (coalesce bp s).2 0 (bp :: L) = true) ∧
    (∀ sn A B, L = A ++ (bp + sb) :: B →
     GET (bp + sb - 4) s = sn → sn % 8 = 0 → 16 ≤ sn → sb + sn < MOD32 →
     (∀ y ∈ t :: L, y = bp + sb ∨ y + 16 ≤ bp ∨ bp + sb + sn ≤ y) →
     (GET_ALLOC (FTRP (PREV_BLKP bp s) s) s ≠ 0 ∨ PREV_BLKP bp s = bp) →
     (coalesce bp s).1 = bp ∧ (coalesce bp s).2.free_listp = bp ∧
     GET_ALLOC (HDRP bp) (coalesce bp s).2 = 0 ∧
     GET (HDRP bp) (coalesce bp s).2 = PACK (sb + sn) 0 ∧
     GET (bp + sb + sn - 8) (coalesce bp s).2 = PACK (sb + sn) 0 ∧
     segB (coalesce bp s).2 bp (bp :: (A ++ B)) t = true ∧
     prevB (coalesce bp s).2 0 (bp :: (A ++ B)) = true) ∧
    (∀ sp A B, L = A ++ (bp - sp) :: B →
     GET (bp - 8) s = sp → GET (bp - sp - 4) s = sp → sp % 8 = 0 → 16 ≤ sp →
     sb + sp < MOD32 →
     (∀ y ∈ t :: L, y = bp - sp ∨ y + 16 ≤ bp - sp ∨ bp + sb ≤ y) →
     GET_ALLOC (HDRP (NEXT_BLKP bp s)) s ≠ 0 →
     (coalesce bp s).1 = bp - sp ∧ (coalesce bp s).2.free_listp = bp - sp ∧
     GET_ALLOC (HDRP (bp - sp)) (coalesce bp s).2 = 0 ∧
     GET (HDRP (bp - sp)) (coalesce bp s).2 = PACK (sb + sp) 0 ∧
     GET (bp + sb - 8) (coalesce bp s).2 = PACK (sb + sp) 0 ∧
     segB (coalesce bp s).2 (bp - sp) ((bp - sp) :: (A ++ B)) t = true ∧
     prevB (coalesce bp s).2 0 ((bp - sp) :: (A ++ B)) = true) ∧
    (∀ sp sn X Y Z,
     (L = X ++ (bp - sp) :: (Y ++ (bp + sb) :: Z) ∨
      L = X ++ (bp + sb) :: (Y ++ (bp - sp) :: Z)) →
     GET (bp - 8) s = sp → GET (bp - sp - 4) s = sp → sp % 8 = 0 → 16 ≤ sp →
     GET (bp + sb - 4) s = sn → sn % 8 = 0 → 16 ≤ sn →
     sb + sp + sn < MOD32 →
     (∀ y ∈ t :: L, y = bp - sp ∨ y = bp + sb ∨ y + 16 ≤ bp - sp ∨ bp + sb + sn ≤ y) →
     (coalesce bp s).1 = bp - sp ∧ (coalesce bp s).2.free_listp = bp - sp ∧
     GET_ALLOC (HDRP (bp - sp)) (coalesce bp s).2 = 0 ∧
     GET (HDRP (bp - sp)) (coalesce bp s).2 = PACK (sb + sp + sn) 0 ∧
     GET (bp + sb + sn - 8) (coalesce bp s).2 = PACK (sb + sp + sn) 0 ∧
     segB (coalesce bp s).2 (bp - sp) ((bp - sp) :: (X ++ Y ++ Z)) t = true ∧
     prevB (coalesce bp s).2 0 ((bp - sp) :: (X ++ Y ++ Z)) = true) := by
  refine ⟨?_, ?_, ?_, ?_⟩
  · intro hext hpa hna
    exact coalesce_none_free s t bp sb L hhdr hftr hsb8 hsb16 hseg hprev hsep hlow
      hext hpa hna
  · intro sn A B hL hnhdr hsn8 hsn16 hbnd hext hpa
    subst hL
    exact coalesce_next_free s t bp sb sn A B hhdr hsb8 hsb16 hnhdr hsn8 hsn16 hbnd
      hseg hprev hsep hlow hext hpa
  · intro sp A B hL hpftr hphdr hsp8 hsp16 hbnd hext hna
    subst hL
    exact coalesce_prev_free s t bp sb sp A B hhdr hsb8 hsb16 hpftr hphdr hsp8 hsp16
      hbnd hseg hprev hsep hlow hext hna
  · intro sp sn X Y Z harr hpftr hphdr hsp8 hsp16 hnhdr hsn8 hsn16 hbnd hext
    rcases harr with hL | hL
    · subst hL
      have hAB : X ++ (Y ++ (bp + sb) :: Z) = (X ++ Y) ++ (bp + sb) :: Z :=
        (List.append_assoc X Y _).symm
      have hperm2 : List.Perm (X ++ (bp - sp) :: (Y ++ (bp + sb) :: Z))
          ((bp - sp) :: (bp + sb) :: ((X ++ Y) ++ Z)) := by
        refine List.Perm.trans List.perm_middle (List.Perm.cons _ ?_)
        rw [hAB]
        exact List.perm_middle
      exact coalesce_both_free s t bp sb sp sn X (Y ++ (bp + sb) :: Z) (X ++ Y) Z
        hAB hhdr hsb8 hsb16 hpftr hphdr hsp8 hsp16 hnhdr hsn8 hsn16 hbnd
        hseg hprev hsep hlow hext hperm2
    · subst hL
      have hLr : X ++ (bp + sb) :: (Y ++ (bp - sp) :: Z) =
          (X ++ (bp + sb) :: Y) ++ (bp - sp) :: Z := by
        simp
      have hAB : (X ++ (bp + sb) :: Y) ++ Z = X ++ (bp + sb) :: (Y ++ Z) := by
        simp
      have hperm2 : List.Perm ((X ++ (bp + sb) :: Y) ++ (bp - sp) :: Z)
          ((bp - sp) :: (bp + sb) :: (X ++ (Y ++ Z))) := by
        refine List.Perm.trans List.perm_middle (List.Perm.cons _ ?_)
        rw [hAB]
        exact List.perm_middle
      rw [hLr] at hseg hprev hsep hlow hext
      have h := coalesce_both_free s t bp sb sp sn (X ++ (bp + sb) :: Y) Z X (Y ++ Z)
        hAB hhdr hsb8 hsb16 hpftr hphdr hsp8 hsp16 hnhdr hsn8 hsn16 hbnd
        hseg hprev hsep hlow hext hperm2
      rw [← List.append_assoc] at h
      exact h

/-- Witness for C3 at the concrete heap `c3state` (coalesce case 3: only
the predecessor, the size-16 list member at 32, is free): freeing the
block at 48 merges into the block at 32, which gets size 32, a matching
header and footer, and becomes the new head of the free list. -/
theorem C3_coalesce_witness :
    (coalesce 48 c3state).1 = 48 - 16 ∧
    (coalesce 48 c3state).2.free_listp = 48 - 16 ∧
    GET_ALLOC (HDRP (48 - 16)) (coalesce 48 c3state).2 = 0 ∧
    GET (HDRP (48 - 16)) (coalesce 48 c3state).2 = PACK (16 + 16) 0 ∧
    GET (48 + 16 - 8) (coalesce 48 c3state).2 = PACK (16 + 16) 0 ∧
    segB (coalesce 48 c3state).2 (48 - 16) ((48 - 16) :: ([] ++ [])) 16 = true ∧
    prevB (coalesce 48 c3state).2 0 ((48 - 16) :: ([] ++ [])) = true :=
  (C3_coalesce c3state 16 48 16 [32] (by decide) (by decide) (by decide) (by decide)
    (by decide) (by decide) (by decide) (by decide)).2.2.1 16 [] [] (by decide)
    (by decide) (by decide) (by decide) (by decide) (by decide) (by decide) (by decide)

end MMalloc
